import Mathlib

/-!
Verification development for the HALLEL Shibuya booking system.

Shallow embedding of the extraction-and-merge pipeline:
* text is `List Char` (`Str`), Python substring tests (`kw in body`) become
  `containsSub`, `str.lower()` becomes `lowerStr` (ASCII case folding, the
  identity on the Japanese text this system processes);
* the Python regex searches of the classifier and parsers are embedded as
  dedicated matcher functions with the same leftmost-match / greedy /
  lazy backtracking behaviour as `re.search` / `re.findall` on each
  concrete pattern;
* the merge engine's in-memory dict `reservations_db` is an insertion-ordered
  association list from dates to slot lists, mutated by per-event apply
  functions mirroring the loop bodies of `gas_webhook`,
  `sync_gmail_reservations` and `sync_hacomono_reservations` in `app.py`;
* Python floats (confidence values) are embedded as rationals `ℚ`.
-/

/-- Text, as a list of characters (Python `str`). -/
abbrev Str := List Char

/-- Shorthand to write `Str` values as string literals. -/
def strOf (s : String) : Str := s.toList

/-- `needle` is a prefix of `hay` (helper for substring containment). -/
def isPrefOf : Str → Str → Bool
  | [], _ => true
  | _ :: _, [] => false
  | a :: as, b :: bs => a == b && isPrefOf as bs

/-- Python's `needle in hay` substring test. -/
def containsSub (needle : Str) : Str → Bool
  | [] => isPrefOf needle []
  | c :: cs => isPrefOf needle (c :: cs) || containsSub needle cs

/-- ASCII lower-casing of one character. Python's `str.lower()` agrees with
this on ASCII and on all Japanese characters (which have no case). -/
def lowerChar (c : Char) : Char :=
  if 'A' ≤ c && c ≤ 'Z' then Char.ofNat (c.toNat + 32) else c

/-- Python's `str.lower()` on the character sets this system processes. -/
def lowerStr (s : Str) : Str := s.map lowerChar

/-- Whitespace as matched by Python's `\s` / stripped by `str.strip()`:
ASCII whitespace plus the Unicode space characters (notably U+3000, the
ideographic space common in Japanese text). -/
def pyIsSpace (c : Char) : Bool :=
  c == ' ' || c == '\t' || c == '\n' || c == '\r' || c == '\x0b' || c == '\x0c' ||
  c == '\x1c' || c == '\x1d' || c == '\x1e' || c == '\x1f' || c == '\u0085' ||
  c == '\u00a0' || c == '\u1680' ||
  ('\u2000' <= c && c <= '\u200a') ||
  c == '\u2028' || c == '\u2029' || c == '\u202f' || c == '\u205f' || c == '\u3000'

/-- Python's `str.strip()`: drop leading and trailing whitespace. -/
def pyStrip (s : Str) : Str :=
  ((s.dropWhile pyIsSpace).reverse.dropWhile pyIsSpace).reverse

/-- Python's `str.replace(old, new)` specialised to deleting every
occurrence of a single character (used for `.replace('様', '')`). -/
def removeChar (c : Char) (s : Str) : Str := s.filter (fun x => !(x == c))

/-- A decimal digit, as matched by `\d` on the ASCII digits this pipeline
receives. -/
def isDigitCh (c : Char) : Bool := '0' ≤ c && c ≤ '9'

/-- Numeric value of a string of decimal digits (Python `int(...)` on the
captures produced by the digit patterns). -/
def digitsToNat (s : Str) : Nat :=
  s.foldl (fun n c => n * 10 + (c.toNat - '0'.toNat)) 0

/-- Decimal digits of `n`, most significant first (auxiliary, fuelled by the
number itself; `n < 10^fuel` suffices for exactness). -/
def natDigitsAux : Nat → Nat → Str
  | 0, _ => []
  | _ + 1, 0 => []
  | fuel + 1, n => natDigitsAux fuel (n / 10) ++ [Char.ofNat ('0'.toNat + n % 10)]

/-- Decimal representation of a natural number (Python `str(n)` / `f"{n}"`
for non-negative `n`). -/
def natToStr (n : Nat) : Str :=
  if n == 0 then ['0'] else natDigitsAux (n + 1) n

/-- Left-pad with `'0'` to width `w`: Python's `f"{n:0wd}"` applied to
`natToStr n`, and also `str.zfill(w)` on digit strings. -/
def zfill (w : Nat) (s : Str) : Str := List.replicate (w - s.length) '0' ++ s

/-- Python `f"{n:02d}"`. -/
def fmt02 (n : Nat) : Str := zfill 2 (natToStr n)

/-- Python `f"{n:04d}"`. -/
def fmt04 (n : Nat) : Str := zfill 4 (natToStr n)

/-- Python `str.split(sep)` for a one-character separator. -/
def splitOnCh (sep : Char) : Str → List Str
  | [] => [[]]
  | c :: cs =>
    let rest := splitOnCh sep cs
    if c == sep then [] :: rest
    else match rest with
      | [] => [[c]]
      | r :: rs => (c :: r) :: rs

/-! ## Data model of the merge engine (`app.py`)

A stored slot is one element of `reservations_db[date]`. The required
fields are the ones every merge path writes and the duplicate / cancel
scans read with `.get`; fields only some paths write are `Option`s
(`none` models the dict key being absent). -/

/-- One stored reservation slot (an entry of `reservations_db[date]`). -/
structure Slot where
  start : Str
  endTime : Str
  typ : Str
  source : Str
  customer_name : Str
  sender : Option Str := none
  email_subject : Option Str := none
  message_id : Option Str := none
  status : Option Str := none
  confidence : Option ℚ := none
  group : Option Nat := none
deriving DecidableEq

/-- The schedule store `reservations_db`: an insertion-ordered mapping from
date strings to slot lists (Python dicts preserve insertion order). -/
abbrev Store := List (Str × List Slot)

/-- Dict lookup `reservations_db.get(date)`. -/
def lookupD (st : Store) (d : Str) : Option (List Slot) :=
  match st with
  | [] => none
  | (k, v) :: rest => if k == d then some v else lookupD rest d

/-- The slot list of a date (`[]` when the key is absent). -/
def slotsOf (st : Store) (d : Str) : List Slot := (lookupD st d).getD []

/-- `if date not in reservations_db: reservations_db[date] = []` — creates
the key at the end of the dict when it is missing. -/
def ensureKey (st : Store) (d : Str) : Store :=
  if (lookupD st d).isSome then st else st ++ [(d, [])]

/-- Dict assignment `reservations_db[date] = slots` (replace the existing
key in place, else append a new key). -/
def setSlots (st : Store) (d : Str) (l : List Slot) : Store :=
  match st with
  | [] => [(d, l)]
  | (k, v) :: rest => if k == d then (d, l) :: rest else (k, v) :: setSlots rest d l

/-- The cancellation scan of the merge engine: walk the slot list in
insertion order and remove the first slot satisfying `p`
(`for i, existing in enumerate(...): if ...: pop(i); break`); `none` when
no slot matches. -/
def cancelScan (p : Slot → Bool) : List Slot → Option (List Slot)
  | [] => none
  | s :: rest => if p s then some rest else (cancelScan p rest).map (s :: ·)

/-- Per-event merge outcome (abstracting the `added_count` /
`cancelled_count` / `duplicate` / `removed` bookkeeping of the loops). -/
inductive Outcome where
  | added
  | cancelled
  | skippedDuplicate
  | cancelNotFound
  | ignored
deriving DecidableEq

/-! ## The three merge paths -/

/-- An event consumed by `sync_gmail_reservations` (one element of
`fast_sync.get_recent_reservations()`; the `.get` defaults `'N/A'`,
`'booking'`, `1.0` of the Python code are folded into total fields). -/
structure GmailEvent where
  date : Str
  start : Str
  endTime : Str
  customer_name : Str
  action_type : Str
  source : Str
  sender : Str
  email_subject : Str
  message_id : Str
  confidence : ℚ
deriving DecidableEq

/-- The slot appended by the booking branch of `sync_gmail_reservations`
(`app.py` lines 449–460); note the hard-coded `'group': 1`. -/
def gmailSlot (ev : GmailEvent) : Slot :=
  { typ := strOf "gmail"
    start := ev.start
    endTime := ev.endTime
    source := ev.source
    sender := some ev.sender
    email_subject := some ev.email_subject
    message_id := some ev.message_id
    customer_name := ev.customer_name
    confidence := some ev.confidence
    group := some 1 }

/-- The per-event loop body of `sync_gmail_reservations` (`app.py`
lines 409–461, store mutation only): ensure the date key, then either
cancel the first slot with matching `(start, customer_name)`, or append a
booking slot unless a slot with matching `(start, customer_name)` exists. -/
def applyGmailEvent (st : Store) (ev : GmailEvent) : Store × Outcome :=
  let st1 := ensureKey st ev.date
  let slots := slotsOf st1 ev.date
  if ev.action_type == strOf "cancellation" then
    match cancelScan (fun s => s.start == ev.start && s.customer_name == ev.customer_name) slots with
    | some slots' => (setSlots st1 ev.date slots', Outcome.cancelled)
    | none => (st1, Outcome.cancelNotFound)
  else if ev.action_type == strOf "booking" then
    if slots.any (fun s => s.start == ev.start && s.customer_name == ev.customer_name) then
      (st1, Outcome.skippedDuplicate)
    else
      (setSlots st1 ev.date (slots ++ [gmailSlot ev]), Outcome.added)
  else (st1, Outcome.ignored)

/-- An event received by the `gas_webhook` endpoint (one element of
`data['reservations']`; `customer_name` total, as produced by the GAS
sender, matching the `.get('customer_name', 'N/A')` default when read). -/
structure WebhookEvent where
  date : Str
  start : Str
  endTime : Str
  typ : Str
  customer_name : Str
  is_cancellation : Bool
deriving DecidableEq

/-- The slot appended by the booking branch of `gas_webhook` (`app.py`
lines 354–361): fixed `type: 'gmail'`, `source: 'gas'`, no `group` key. -/
def webhookSlot (ev : WebhookEvent) : Slot :=
  { start := ev.start
    endTime := ev.endTime
    customer_name := ev.customer_name
    typ := strOf "gmail"
    source := strOf "gas" }

/-- The per-event loop body of `gas_webhook` (`app.py` lines 327–363):
ensure the date key, then either cancel the first slot with matching
`(start, type)`, or append unless a slot with matching
`(start, end, customer_name)` exists. -/
def applyWebhookEvent (st : Store) (ev : WebhookEvent) : Store × Outcome :=
  let st1 := ensureKey st ev.date
  let slots := slotsOf st1 ev.date
  if ev.is_cancellation then
    match cancelScan (fun s => s.start == ev.start && s.typ == ev.typ) slots with
    | some slots' => (setSlots st1 ev.date slots', Outcome.cancelled)
    | none => (st1, Outcome.cancelNotFound)
  else
    if slots.any (fun s => s.start == ev.start && s.endTime == ev.endTime &&
        s.customer_name == ev.customer_name) then
      (st1, Outcome.skippedDuplicate)
    else
      (setSlots st1 ev.date (slots ++ [webhookSlot ev]), Outcome.added)

/-- A record scraped by the hacomono connector (consumed as a booking by
`sync_hacomono_reservations`). -/
structure HacomonoEvent where
  date : Str
  start : Str
  endTime : Str
  typ : Str
  source : Str
  customer_name : Str
  status : Str
deriving DecidableEq

/-- The slot appended by `sync_hacomono_reservations` (`app.py`
lines 552–560): `group` is 1 + the number of existing slots on that date
with the same `start`. -/
def hacomonoSlot (ev : HacomonoEvent) (slots : List Slot) : Slot :=
  { typ := ev.typ
    start := ev.start
    endTime := ev.endTime
    source := ev.source
    customer_name := ev.customer_name
    status := some ev.status
    group := some ((slots.filter (fun r => r.start == ev.start)).length + 1) }

/-- The per-event loop body of `sync_hacomono_reservations` (`app.py`
lines 538–565): ensure the date key, then append unless a slot with
matching `(start, source)` exists. -/
def applyHacomonoEvent (st : Store) (ev : HacomonoEvent) : Store × Outcome :=
  let st1 := ensureKey st ev.date
  let slots := slotsOf st1 ev.date
  if slots.any (fun s => s.start == ev.start && s.source == ev.source) then
    (st1, Outcome.skippedDuplicate)
  else
    (setSlots st1 ev.date (slots ++ [hacomonoSlot ev slots]), Outcome.added)

/-! ## The judgment log (`app.py`) -/

/-- The bounded append shared by `log_reservation_judgment` (`app.py`
lines 90–94) and `add_log` (lines 647–651): append the entry, then drop the
oldest entry when the length exceeds 200 (`pop(0)`). The entry text
(timestamp, emoji, fields) is passed through unchanged. -/
def logTrimStep (log : List Str) (entry : Str) : List Str :=
  let l := log ++ [entry]
  if l.length > 200 then l.drop 1 else l

/-- The audit append of `export_logs` (`app.py` line 696): a plain
`reservation_judgment_logs.append(export_log)` with no length bound. -/
def exportLogStep (log : List Str) (entry : Str) : List Str := log ++ [entry]

/-! ## Regex matchers

Each Python pattern of the pipeline is embedded as a matcher trying to
match at the head of the text; `reSearch` supplies `re.search`'s
leftmost-match scan and `findAll` supplies `re.findall`'s non-overlapping
scan. In every pattern below a `\d{1,2}` group is followed by a non-digit
literal (or ends the pattern), so the greedy two-then-one-digit local
choice coincides with full regex backtracking; likewise every `\s*` is
followed by a non-whitespace literal, so it deterministically consumes the
maximal whitespace run. -/

/-- Match exactly `n` decimal digits, returning the captured digits and
the rest of the text. -/
def takeDigits : Nat → Str → Option (Str × Str)
  | 0, l => some ([], l)
  | _ + 1, [] => none
  | n + 1, c :: cs =>
    if isDigitCh c then (takeDigits n cs).map (fun p => (c :: p.1, p.2)) else none

/-- Try exactly `n` digits, then run the continuation on the rest. -/
def digitsThen (n : Nat) (k : Str → Option α) (l : Str) : Option (Str × α) := do
  let (ds, r) ← takeDigits n l
  let a ← k r
  pure (ds, a)

/-- Greedy `(\d{1,2})` followed by continuation `k`: prefer two digits. -/
def dig12 (k : Str → Option α) (l : Str) : Option (Str × α) :=
  digitsThen 2 k l <|> digitsThen 1 k l

/-- Expect one specific character. -/
def expectCh (c : Char) : Str → Option Str
  | [] => none
  | x :: r => if x == c then some r else none

/-- Expect one character out of a class (e.g. the slash-or-hyphen class of the date patterns). -/
def expectCls (cls : List Char) : Str → Option Str
  | [] => none
  | x :: r => if cls.any (· == x) then some r else none

/-- Expect a literal string. -/
def litM (w : Str) (l : Str) : Option Str :=
  if isPrefOf w l then some (l.drop w.length) else none

/-- `re.search`: try the matcher at each position, leftmost first. -/
def reSearch (m : Str → Option α) : Str → Option α
  | [] => m []
  | c :: cs => m (c :: cs) <|> reSearch m cs

/-- `re.findall` (auxiliary, fuelled): collect non-overlapping matches left
to right, resuming after each match. Every pattern used with it consumes
at least one character per match, so fuel `length + 1` is exact. -/
def findAllAux (m : Str → Option (α × Str)) : Nat → Str → List α
  | 0, _ => []
  | _ + 1, [] => []
  | fuel + 1, c :: cs =>
    match m (c :: cs) with
    | some (a, rest) => a :: findAllAux m fuel rest
    | none => findAllAux m fuel cs

/-- `re.findall` over the whole text. -/
def findAll (m : Str → Option (α × Str)) (l : Str) : List α :=
  findAllAux m (l.length + 1) l

/-- Matcher for `(\d{4})年(\d{1,2})月(\d{1,2})日` (the classifier's
`date_pattern`, also date pattern 1 of `FastGmailSync.parse_reservation`):
captures `(year, month, day)` digit strings. -/
def mDateJPAt (l : Str) : Option ((Str × Str × Str) × Str) := do
  let (y, r) ← takeDigits 4 l
  let r ← expectCh '年' r
  let (m, r) ← dig12 (expectCh '月') r
  let (d, r) ← dig12 (expectCh '日') r
  pure ((y, m, d), r)

/-- Matcher for `(\d{1,2}):(\d{2})~(\d{1,2}):(\d{2})` (the classifier's
`time_pattern`; the separator is the ASCII tilde). -/
def mTimeTildeAt (l : Str) : Option ((Str × Str × Str × Str) × Str) := do
  let (h1, r) ← dig12 (expectCh ':') l
  let (m1, r) ← takeDigits 2 r
  let r ← expectCh '~' r
  let (h2, r) ← dig12 (expectCh ':') r
  let (m2, r) ← takeDigits 2 r
  pure ((h1, m1, h2, m2), r)

/-- Tail test for `\s*様`: since `様` is not whitespace, the pattern
matches here exactly when the first non-whitespace character is `様`. -/
def yoTail (l : Str) : Bool :=
  match l.dropWhile pyIsSpace with
  | c :: _ => c == '様'
  | [] => false

/-- Lazy group of the classifier's `customer_pattern` `(.*?)\s*様` at one
position: the shortest `[^\n]*` prefix after which `\s*様` matches
(`.` does not match a newline). -/
def lazyGrpYoAt : Str → Option Str
  | [] => none
  | c :: cs =>
    if yoTail (c :: cs) then some []
    else if c == '\n' then none
    else (lazyGrpYoAt cs).map (c :: ·)

/-- `re.search(r'(.*?)\s*様', body)`: leftmost position, then lazy group.
(A zero-width group at the very end of the text cannot match, since
`yoTail [] = false`.) -/
def searchCustomerGrp (body : Str) : Option Str := reSearch lazyGrpYoAt body

/-- The circled-digit class `[⑥①②③④⑤⑦⑧⑨⑩]` of the studio pattern. -/
def isCircledDigit (c : Char) : Bool :=
  ['⑥', '①', '②', '③', '④', '⑤', '⑦', '⑧', '⑨', '⑩'].any (· == c)

/-- Matcher for the classifier's studio pattern
`(渋谷店\s*STUDIO\s*[⑥①②③④⑤⑦⑧⑨⑩]*\s*\(\d+\))` at one position,
returning the full matched text (the group spans the whole pattern). -/
def mStudioAt (l : Str) : Option (Str × Str) := do
  let r ← litM (strOf "渋谷店") l
  let ws1 := r.takeWhile pyIsSpace
  let r := r.dropWhile pyIsSpace
  let r ← litM (strOf "STUDIO") r
  let ws2 := r.takeWhile pyIsSpace
  let r := r.dropWhile pyIsSpace
  let circ := r.takeWhile isCircledDigit
  let r := r.drop circ.length
  let ws3 := r.takeWhile pyIsSpace
  let r := r.dropWhile pyIsSpace
  let r ← expectCh '(' r
  let ds := r.takeWhile isDigitCh
  if ds.isEmpty then none
  else do
    let r ← expectCh ')' (r.drop ds.length)
    pure (strOf "渋谷店" ++ ws1 ++ strOf "STUDIO" ++ ws2 ++ circ ++ ws3 ++
      ['('] ++ ds ++ [')'], r)

/-! ## The classifier (`reservation_classifier.py`) -/

/-- `HALLELReservationClassifier.booking_keywords`. -/
def booking_keywords : List Str :=
  [strOf "ご予約ありがとうございます",
   strOf "以下の内容を承りました",
   strOf "ご確認ください",
   strOf "予約が完了",
   strOf "承りました"]

/-- `HALLELReservationClassifier.cancellation_keywords`. -/
def cancellation_keywords : List Str :=
  [strOf "キャンセルいたしました",
   strOf "予約をキャンセル",
   strOf "キャンセルしました",
   strOf "取り消し",
   strOf "キャンセル完了"]

/-- `_is_hallel_email`: brand filter on `subject + " " + body` lower-cased,
then reject on the Hanzomon markers, then require a Shibuya marker
(absence of either marker rejects). -/
def isHallelEmail (subject body : Str) : Bool :=
  let combined := lowerStr (subject ++ [' '] ++ body)
  let isHallel :=
    [strOf "HALLEL", strOf "hallel"].any (fun ind => containsSub (lowerStr ind) combined)
  if !isHallel then false
  else if containsSub (strOf "半蔵門店") body || containsSub (strOf "hanzomon") (lowerStr body) then
    false
  else if containsSub (strOf "渋谷店") body || containsSub (strOf "shibuya") (lowerStr body) then
    true
  else false

/-- `_determine_action_type`: cancellation keywords, then booking keywords,
then the secondary substring heuristics; `none` when unclassifiable. -/
def determineActionType (body : Str) : Option Str :=
  let bodyLower := lowerStr body
  if cancellation_keywords.any (fun kw => containsSub kw body) then
    some (strOf "cancellation")
  else if booking_keywords.any (fun kw => containsSub kw body) then
    some (strOf "booking")
  else if containsSub (strOf "キャンセル") body || containsSub (strOf "cancel") bodyLower then
    some (strOf "cancellation")
  else if containsSub (strOf "予約") body &&
      (containsSub (strOf "ありがとう") body || containsSub (strOf "承り") body) then
    some (strOf "booking")
  else none

/-- `_extract_customer_name`: first match of `(.*?)\s*様`, stripped;
`"不明"` when nothing matches. -/
def extractCustomerName (body : Str) : Str :=
  match searchCustomerGrp body with
  | some g => pyStrip g
  | none => strOf "不明"

/-- `_extract_date_time`: date from `date_pattern`, times from
`time_pattern`, normalised to `YYYY-MM-DD` / `HH:MM`, duration in minutes
(may be negative, as in the Python `int` subtraction). -/
def extractDateTime (body : Str) : Option (Str × Str × Str × Int) :=
  match reSearch mDateJPAt body with
  | none => none
  | some ((ys, ms, ds), _) =>
    match reSearch mTimeTildeAt body with
    | none => none
    | some ((h1s, m1s, h2s, m2s), _) =>
      let year := digitsToNat ys
      let month := digitsToNat ms
      let day := digitsToNat ds
      let sh := digitsToNat h1s
      let sm := digitsToNat m1s
      let eh := digitsToNat h2s
      let em := digitsToNat m2s
      let dateStr := fmt04 year ++ ['-'] ++ fmt02 month ++ ['-'] ++ fmt02 day
      let startT := fmt02 sh ++ [':'] ++ fmt02 sm
      let endT := fmt02 eh ++ [':'] ++ fmt02 em
      let dur : Int := (eh * 60 + em : Int) - (sh * 60 + sm : Int)
      some (dateStr, startT, endT, dur)

/-- `_extract_studio_info`: the studio pattern, else the bare `"STUDIO"`
token, else `"不明"`. -/
def extractStudioInfo (body : Str) : Str :=
  match reSearch mStudioAt body with
  | some (g, _) => pyStrip g
  | none => if containsSub (strOf "STUDIO") body then strOf "STUDIO" else strOf "不明"

/-- `_calculate_confidence`: base 0.5; +0.1 per matched booking keyword or
+0.15 per matched cancellation keyword (loop over the keyword list);
+0.1 for a `date_pattern` match, +0.1 for a `time_pattern` match, +0.1 for
the literal `"HALLEL"` in the body; capped at 1.0. -/
def calculateConfidence (action_type : Str) (body : Str) : ℚ :=
  let c : ℚ := 1/2
  let c :=
    if action_type == strOf "booking" then
      booking_keywords.foldl (fun acc kw => if containsSub kw body then acc + 1/10 else acc) c
    else if action_type == strOf "cancellation" then
      cancellation_keywords.foldl (fun acc kw => if containsSub kw body then acc + 3/20 else acc) c
    else c
  let c := if (reSearch mDateJPAt body).isSome then c + 1/10 else c
  let c := if (reSearch mTimeTildeAt body).isSome then c + 1/10 else c
  let c := if containsSub (strOf "HALLEL") body then c + 1/10 else c
  min c 1

/-- The classifier's output record (`ReservationInfo` dataclass). -/
structure ReservationInfo where
  action_type : Str
  date : Str
  start_time : Str
  end_time : Str
  customer_name : Str
  studio : Str
  duration_minutes : Int
  confidence : ℚ
  raw_text : Str
deriving DecidableEq

/-- `classify_email`: brand/location filter, action determination, field
extraction (date or time missing ⇒ `none`), studio extraction, confidence
scoring. (None of the embedded operations can raise, so the Python
`try/except` wrapper adds nothing.) -/
def classifyEmail (subject body : Str) : Option ReservationInfo :=
  if !(isHallelEmail subject body) then none
  else
    match determineActionType body with
    | none => none
    | some act =>
      let customer := extractCustomerName body
      match extractDateTime body with
      | none => none
      | some (d, st, en, dur) =>
        some { action_type := act
               date := d
               start_time := st
               end_time := en
               customer_name := customer
               studio := extractStudioInfo body
               duration_minutes := dur
               confidence := calculateConfidence act body
               raw_text := body }

/-! ## The fast Gmail sync parser (`gmail_fast_sync.py`) -/

/-- Matcher for `(\d{4})sep(\d{1,2})sep(\d{1,2})` (`sep` the slash-or-hyphen class) (date pattern 2 of
`FastGmailSync.parse_reservation`, date pattern 1 of
`parse_reservation_info`). -/
def mDateSlashAt (l : Str) : Option ((Str × Str × Str) × Str) := do
  let (y, r) ← takeDigits 4 l
  let r ← expectCls ['/', '-'] r
  let (m, r) ← dig12 (expectCls ['/', '-']) r
  let (d, r) ← dig12 (fun x => some x) r
  pure ((y, m, d), r)

/-- Matcher for `日時：(\d{4})年(\d{1,2})月(\d{1,2})日` (date pattern 3 of
`FastGmailSync.parse_reservation`). -/
def mDateJidokiAt (l : Str) : Option ((Str × Str × Str) × Str) := do
  let r ← litM (strOf "日時：") l
  mDateJPAt r

/-- Matcher for `(\d{1,2}):(\d{2})\s*[〜～~-]\s*(\d{1,2}):(\d{2})` (time
pattern 1 of `FastGmailSync.parse_reservation`). -/
def mFastTime1At (l : Str) : Option ((Str × Str × Str × Str) × Str) := do
  let (h1, r) ← dig12 (expectCh ':') l
  let (m1, r) ← takeDigits 2 r
  let r ← expectCls ['〜', '～', '~', '-'] (r.dropWhile pyIsSpace)
  let (h2, r) ← dig12 (expectCh ':') (r.dropWhile pyIsSpace)
  let (m2, r) ← takeDigits 2 r
  pure ((h1, m1, h2, m2), r)

/-- Matcher for `(\d{1,2}):(\d{2})～(\d{1,2}):(\d{2})` (time pattern 2,
full-width tilde). -/
def mFastTime2At (l : Str) : Option ((Str × Str × Str × Str) × Str) := do
  let (h1, r) ← dig12 (expectCh ':') l
  let (m1, r) ← takeDigits 2 r
  let r ← expectCh '～' r
  let (h2, r) ← dig12 (expectCh ':') r
  let (m2, r) ← takeDigits 2 r
  pure ((h1, m1, h2, m2), r)

/-- Matcher for `(\d{1,2}):(\d{2})-(\d{1,2}):(\d{2})` (time pattern 3). -/
def mFastTime3At (l : Str) : Option ((Str × Str × Str × Str) × Str) := do
  let (h1, r) ← dig12 (expectCh ':') l
  let (m1, r) ← takeDigits 2 r
  let r ← expectCh '-' r
  let (h2, r) ← dig12 (expectCh ':') r
  let (m2, r) ← takeDigits 2 r
  pure ((h1, m1, h2, m2), r)

/-- Not a line terminator: the `[^\n\r]` class of the customer patterns. -/
def isNotNLCR (c : Char) : Bool := !(c == '\n' || c == '\r')

/-- Customer pattern 1, `^([^\n\r]+)\s*様`, at one anchor position: the
greedy group is the longest non-empty line prefix after which `\s*様`
matches (`様` is not whitespace, so that tail test is `yoTail`). -/
def p1AtAnchor (l : Str) : Option Str :=
  let line := l.takeWhile isNotNLCR
  (List.range line.length).reverse.findSome? (fun i =>
    if yoTail (l.drop (i + 1)) then some (line.take (i + 1)) else none)

/-- Positions after a `'\n'`, for `re.MULTILINE`'s `^`. -/
def anchorsSearch (m : Str → Option α) : Str → Option α
  | [] => none
  | c :: cs => if c == '\n' then m cs <|> anchorsSearch m cs else anchorsSearch m cs

/-- `re.search` with `re.MULTILINE` for a `^`-anchored pattern: try the
start of the text, then the position after each newline, leftmost first. -/
def reSearchML (m : Str → Option α) (l : Str) : Option α :=
  m l <|> anchorsSearch m l

/-- The `[：:\s]` class of customer pattern 2. -/
def isColonOrSpace (c : Char) : Bool := c == '：' || c == ':' || pyIsSpace c

/-- Customer pattern 2, `(?:お名前|氏名)[：:\s]*([^\n\r]+)`, at one
position: the label alternation, then the greedy separator run backtracks
from longest until the greedy group `[^\n\r]+` is non-empty. -/
def p2CustomerAt (l : Str) : Option Str :=
  match litM (strOf "お名前") l <|> litM (strOf "氏名") l with
  | none => none
  | some r =>
    let run := (r.takeWhile isColonOrSpace).length
    (List.range (run + 1)).reverse.findSome? (fun j =>
      let grp := (r.drop j).takeWhile isNotNLCR
      if grp.isEmpty then none else some grp)

/-- Tail of customer pattern 3 after the group: `\s*様\s*\n\n(?:ご予約|以下の予約)`.
The first `\s*` is deterministic (`様` is not whitespace); the second
backtracks over the whitespace run until a literal `"\n\n"` followed by
one of the alternatives begins. -/
def p3Tail (l : Str) : Bool :=
  match l.dropWhile pyIsSpace with
  | c :: rest =>
    c == '様' &&
    (List.range ((rest.takeWhile pyIsSpace).length + 1)).any (fun j =>
      match rest.drop j with
      | '\n' :: '\n' :: r2 => isPrefOf (strOf "ご予約") r2 || isPrefOf (strOf "以下の予約") r2
      | _ => false)
  | [] => false

/-- Customer pattern 3, `([^\n\r]+)\s*様\s*\n\n(?:ご予約|以下の予約)`, at one
position: longest non-empty line prefix whose tail matches `p3Tail`. -/
def p3CustomerAt (l : Str) : Option Str :=
  let line := l.takeWhile isNotNLCR
  (List.range line.length).reverse.findSome? (fun i =>
    if p3Tail (l.drop (i + 1)) then some (line.take (i + 1)) else none)

/-- The customer-name extraction of `FastGmailSync.parse_reservation`
(lines 305–319): first matching pattern wins; the group is stripped, its
`様` removed, stripped again; default `'N/A'`. -/
def fastCustomerName (body : Str) : Str :=
  match reSearchML p1AtAnchor body with
  | some g => pyStrip (removeChar '様' (pyStrip g))
  | none =>
    match reSearch p2CustomerAt body with
    | some g => pyStrip (removeChar '様' (pyStrip g))
    | none =>
      match reSearch p3CustomerAt body with
      | some g => pyStrip (removeChar '様' (pyStrip g))
      | none => strOf "N/A"

/-- The location filter of `FastGmailSync.parse_reservation`
(lines 252–255): accept when the body mentions `渋谷`, `shibuya` or
`hallel` — no exclusion of other stores. -/
def fastLocationOk (body : Str) : Bool :=
  containsSub (strOf "渋谷") body ||
  containsSub (strOf "shibuya") (lowerStr body) ||
  containsSub (strOf "hallel") (lowerStr body)

/-- The reservation-type guess of `parse_reservation`: `'charter'` when a
charter word occurs in `subject.lower() + body.lower()`, else `'gmail'`. -/
def fastResType (subject body : Str) : Str :=
  if [strOf "charter", strOf "チャーター", strOf "貸切", strOf "貸し切り"].any
      (fun w => containsSub w (lowerStr subject ++ lowerStr body)) then
    strOf "charter"
  else strOf "gmail"

/-- First date pattern of `parse_reservation` that matches the body, with
its captures, tried in the order of `date_patterns`. -/
def fastSearchDate (body : Str) : Option (Str × Str × Str) :=
  match reSearch mDateJPAt body with
  | some (c, _) => some c
  | none =>
    match reSearch mDateSlashAt body with
    | some (c, _) => some c
    | none =>
      match reSearch mDateJidokiAt body with
      | some (c, _) => some c
      | none => none

/-- First time pattern of `parse_reservation` that matches the body. -/
def fastSearchTime (body : Str) : Option (Str × Str × Str × Str) :=
  match reSearch mFastTime1At body with
  | some (c, _) => some c
  | none =>
    match reSearch mFastTime2At body with
    | some (c, _) => some c
    | none =>
      match reSearch mFastTime3At body with
      | some (c, _) => some c
      | none => none

/-- The record returned by `FastGmailSync.parse_reservation`. -/
structure FastReservation where
  date : Str
  start : Str
  endTime : Str
  customer_name : Str
  typ : Str
  is_cancellation : Bool
  source : Str
deriving DecidableEq

/-- `FastGmailSync.parse_reservation(body, subject)` (lines 242–331):
location filter, cancellation flag from the subject, date and time
extraction (first matching pattern), customer-name extraction. -/
def fastParseReservation (body subject : Str) : Option FastReservation :=
  if body.isEmpty then none
  else if !(fastLocationOk body) then none
  else
    match fastSearchDate body with
    | none => none
    | some (y, m, d) =>
      match fastSearchTime body with
      | none => none
      | some (h1, m1, h2, m2) =>
        some { date := y ++ ['-'] ++ zfill 2 m ++ ['-'] ++ zfill 2 d
               start := zfill 2 h1 ++ [':'] ++ m1
               endTime := zfill 2 h2 ++ [':'] ++ m2
               customer_name := fastCustomerName body
               typ := fastResType subject body
               is_cancellation := containsSub (strOf "キャンセル") subject ||
                 containsSub (strOf "cancel") (lowerStr subject)
               source := strOf "fast_gmail_sync" }

/-! ## The legacy parser's date/time extraction (`gmail_parser.py`)

`parse_reservation_info` (lines 149–239). Only its date/time/end-synthesis
portion (lines 162–219) is embedded: the other fields of the returned dict
(type, customer name, cancellation flag, provenance) are computed
independently of the `(date, start, end)` triple. -/

/-- Matcher for `(\d{1,2})sep(\d{1,2})` (`sep` the slash-or-hyphen class) (date pattern 2 of
`parse_reservation_info`). -/
def mDateMDSlashAt (l : Str) : Option ((Str × Str) × Str) := do
  let (m, r) ← dig12 (expectCls ['/', '-']) l
  let (d, r) ← dig12 (fun x => some x) r
  pure ((m, d), r)

/-- Matcher for `(\d{1,2})月(\d{1,2})日` (date pattern 3 of
`parse_reservation_info`). -/
def mDateMDJPAt (l : Str) : Option ((Str × Str) × Str) := do
  let (m, r) ← dig12 (expectCh '月') l
  let (d, r) ← dig12 (expectCh '日') r
  pure ((m, d), r)

/-- Matcher for `(\d{1,2}):(\d{2})` (time pattern 1 of
`parse_reservation_info`). -/
def mTimeHMAt (l : Str) : Option ((Str × Str) × Str) := do
  let (h, r) ← dig12 (expectCh ':') l
  let (m, r) ← takeDigits 2 r
  pure ((h, m), r)

/-- Matcher for `(\d{1,2})時(\d{1,2})分?` (time pattern 2 of
`parse_reservation_info`); the optional `分` is consumed when present. -/
def mTimeJPAt (l : Str) : Option ((Str × Str) × Str) := do
  let (h, r) ← dig12 (expectCh '時') l
  let (m, r) ← dig12 (fun x => some x) r
  let r := match expectCh '分' r with
    | some r2 => r2
    | none => r
  pure ((h, m), r)

/-- The date extraction of `parse_reservation_info` (lines 180–193):
patterns tried in order, first pattern with a match wins (`matches[0]` of
`re.findall` is the leftmost match, i.e. the `re.search` result); the
two-capture forms default the year to the current calendar year. -/
def legacyDateFound (currentYear : Nat) (body : Str) : Option Str :=
  match reSearch mDateSlashAt body with
  | some ((y, m, d), _) => some (y ++ ['-'] ++ zfill 2 m ++ ['-'] ++ zfill 2 d)
  | none =>
    match reSearch mDateMDSlashAt body with
    | some ((m, d), _) =>
      some (natToStr currentYear ++ ['-'] ++ zfill 2 m ++ ['-'] ++ zfill 2 d)
    | none =>
      match reSearch mDateMDJPAt body with
      | some ((m, d), _) =>
        some (natToStr currentYear ++ ['-'] ++ zfill 2 m ++ ['-'] ++ zfill 2 d)
      | none => none

/-- The time extraction of `parse_reservation_info` (lines 196–203): all
matches of time pattern 1, then all matches of time pattern 2, each
formatted as `HH:MM` with zero-filled fields. -/
def legacyTimesFound (body : Str) : List Str :=
  (findAll mTimeHMAt body).map (fun p => zfill 2 p.1 ++ [':'] ++ zfill 2 p.2) ++
  (findAll mTimeJPAt body).map (fun p => zfill 2 p.1 ++ [':'] ++ zfill 2 p.2)

/-- The end-time synthesis of `parse_reservation_info` (lines 211–219):
start plus one hour and thirty minutes, carrying minute overflow into the
hour; the hour is **not** reduced modulo 24. -/
def synthEndTime (startT : Str) : Str :=
  let parts := splitOnCh ':' startT
  let sh := digitsToNat (parts.getD 0 [])
  let sm := digitsToNat (parts.getD 1 [])
  if sm + 30 ≥ 60 then fmt02 (sh + 1 + 1) ++ [':'] ++ fmt02 (sm + 30 - 60)
  else fmt02 (sh + 1) ++ [':'] ++ fmt02 (sm + 30)

/-- The `(date, start, end)` triple of the dict returned by
`parse_reservation_info` (lines 205–219): `none` when no date or no time
was found; the end time is the second found time, synthesized from the
first when only one time occurs. -/
def parseReservationInfoDT (currentYear : Nat) (body : Str) : Option (Str × Str × Str) :=
  match legacyDateFound currentYear body, legacyTimesFound body with
  | some d, t0 :: rest =>
    let endT := match rest with
      | t1 :: _ => t1
      | [] => synthEndTime t0
    some (d, t0, endT)
  | _, _ => none

/-! ## The confidence-gated fetch pipeline (`gmail_parser.py` lines 300–345) -/

/-- One converted reservation record as assembled by
`fetch_and_parse_reservations` for events that pass the confidence gate. -/
structure ReservationData where
  action_type : Str
  date : Str
  start : Str
  endTime : Str
  customer_name : Str
  studio : Str
  source : Str
  confidence : ℚ
  message_id : Str
  email_subject : Str
deriving DecidableEq

/-- The field conversion of `fetch_and_parse_reservations` (lines 320–331). -/
def convertInfo (mid subject : Str) (info : ReservationInfo) : ReservationData :=
  { action_type := info.action_type
    date := info.date
    start := info.start_time
    endTime := info.end_time
    customer_name := info.customer_name
    studio := info.studio
    source := strOf "gmail_auto"
    confidence := info.confidence
    message_id := mid
    email_subject := subject }

/-- The per-message step of `fetch_and_parse_reservations`: classify, and
append the converted record only when `confidence > 0.7`. A message is a
`(message_id, subject, body)` triple as delivered by `get_email_content`. -/
def fetchStep (acc : List ReservationData) (msg : Str × Str × Str) : List ReservationData :=
  match classifyEmail msg.2.1 msg.2.2 with
  | some info =>
    if 7/10 < info.confidence then acc ++ [convertInfo msg.1 msg.2.1 info] else acc
  | none => acc

/-- `fetch_and_parse_reservations` over the fetched messages (the loop
processes at most the first 20 messages). -/
def fetchAndParseReservations (msgs : List (Str × Str × Str)) : List ReservationData :=
  (msgs.take 20).foldl fetchStep []

/-- The ids for which `label_processed_reservation` is invoked (inside the
same confidence-gated branch, when a labeler is configured). -/
def labeledMessageIds (msgs : List (Str × Str × Str)) : List Str :=
  (msgs.take 20).foldl (fun acc msg =>
    match classifyEmail msg.2.1 msg.2.2 with
    | some info => if 7/10 < info.confidence then acc ++ [msg.1] else acc
    | none => acc) []

/-! ## Claim C1 -/

/-- Concrete data for claim C1: a store already holding a slot that
duplicates the event under the `(start, customer_name)` rule. -/
def c1Slot : Slot :=
  { start := strOf "10:00", endTime := strOf "11:00", typ := strOf "gmail",
    source := strOf "fast_gmail_sync", customer_name := strOf "田中" }

def c1Store : Store := [(strOf "2025-11-02", [c1Slot])]

def c1Ev : GmailEvent :=
  { date := strOf "2025-11-02", start := strOf "10:00", endTime := strOf "11:00",
    customer_name := strOf "田中", action_type := strOf "booking",
    source := strOf "fast_gmail_sync", sender := strOf "noreply@em.hacomono.jp",
    email_subject := strOf "HALLEL", message_id := strOf "msg-1", confidence := 1 }

def c1wEv : WebhookEvent :=
  { date := strOf "2025-11-02", start := strOf "10:00", endTime := strOf "11:00",
    typ := strOf "gmail", customer_name := strOf "田中", is_cancellation := false }

/-! ## Claim C2 -/

/-- A Cancellation event for claim C2's counterexample. -/
def c2Ev : GmailEvent :=
  { date := strOf "2025-12-01", start := strOf "09:00", endTime := strOf "10:30",
    customer_name := strOf "佐藤", action_type := strOf "cancellation",
    source := strOf "fast_gmail_sync", sender := strOf "noreply@em.hacomono.jp",
    email_subject := strOf "HALLEL", message_id := strOf "msg-2", confidence := 1 }

/-- Store, slots and webhook event for claim C2's witness: the date holds
one non-matching and two matching slots; only the first matching slot is
removed. -/
def c2wOther : Slot :=
  { start := strOf "08:00", endTime := strOf "09:00", typ := strOf "gmail",
    source := strOf "gas", customer_name := strOf "高橋" }

def c2wFirst : Slot :=
  { start := strOf "09:00", endTime := strOf "10:00", typ := strOf "gmail",
    source := strOf "gas", customer_name := strOf "佐藤" }

def c2wSecond : Slot :=
  { start := strOf "09:00", endTime := strOf "10:30", typ := strOf "gmail",
    source := strOf "gas", customer_name := strOf "佐藤" }

def c2wStore : Store := [(strOf "2025-12-01", [c2wOther, c2wFirst, c2wSecond])]

/-- A webhook Cancellation event used to instantiate claim C2's witness. -/
def c2whEv : WebhookEvent :=
  { date := strOf "2025-12-01", start := strOf "09:00", endTime := strOf "10:00",
    typ := strOf "gmail", customer_name := strOf "佐藤", is_cancellation := true }

/-! ## Claim C8 -/

/-- Concrete data for claim C8's counterexample: a date that already has a
slot with the same start time as the incoming (non-duplicate) event. -/
def c8Slot : Slot :=
  { start := strOf "10:00", endTime := strOf "11:00", typ := strOf "gmail",
    source := strOf "fast_gmail_sync", customer_name := strOf "山田", group := some 1 }

def c8Store : Store := [(strOf "2025-11-02", [c8Slot])]

def c8Ev : GmailEvent :=
  { date := strOf "2025-11-02", start := strOf "10:00", endTime := strOf "12:00",
    customer_name := strOf "鈴木", action_type := strOf "booking",
    source := strOf "fast_gmail_sync", sender := strOf "noreply@em.hacomono.jp",
    email_subject := strOf "HALLEL", message_id := strOf "msg-8", confidence := 1 }

/-- A hacomono event for claim C8's witness: one same-`start` slot from a
different source already exists, so the appended slot gets `group = 2`. -/
def c8hEv : HacomonoEvent :=
  { date := strOf "2025-11-02", start := strOf "10:00", endTime := strOf "12:00",
    typ := strOf "charter", source := strOf "hacomono", customer_name := strOf "鈴木",
    status := strOf "confirmed" }

/-- Subject and body for claim C3's witness: the body contains both a
cancellation keyword and a booking keyword. -/
def c3Subject : Str := strOf "HALLELからのお知らせ"

def c3Body : Str := strOf "渋谷店 ご予約ありがとうございます 予約をキャンセルしました"

/-! ## Claim C5 -/

/-- The claim's count of matched action keywords (spec formula side). -/
def matchedKeywordCount (action_type body : Str) : Nat :=
  if action_type == strOf "booking" then
    (booking_keywords.filter (fun kw => containsSub kw body)).length
  else if action_type == strOf "cancellation" then
    (cancellation_keywords.filter (fun kw => containsSub kw body)).length
  else 0

/-- The claim's per-keyword weight: 0.1 for booking, 0.15 for
cancellation. -/
def keywordWeight (action_type : Str) : ℚ :=
  if action_type == strOf "booking" then 1/10
  else if action_type == strOf "cancellation" then 3/20
  else 0

/-- Did the structured date pattern match the body? -/
def dateSignal (body : Str) : Bool := (reSearch mDateJPAt body).isSome

/-- Did the structured time pattern match the body? -/
def timeSignal (body : Str) : Bool := (reSearch mTimeTildeAt body).isSome

/-- Does the brand marker literal `"HALLEL"` appear in the body? -/
def brandSignal (body : Str) : Bool := containsSub (strOf "HALLEL") body

/-- Bodies for claim C5's witness: the second body matches strictly more
corroborating signals than the first. -/
def c5Body1 : Str := strOf "ご予約ありがとうございます"

def c5Body2 : Str := strOf "HALLEL ご予約ありがとうございます 承りました 2025年11月02日 10:00~11:00"

/-- Subject and body for claim C4's counterexample and witness: the body
carries the brand marker and the excluded-location marker `半蔵門店`. -/
def c4Subject : Str := strOf "HALLEL"

def c4Body : Str := strOf "HALLEL 半蔵門店\n日時：2025年11月02日 10:00〜11:00\n田中 様\n"

/-! ## Claim C10 -/

/-- The confidence gate of `fetch_and_parse_reservations`, per message:
the converted record when classification succeeded with
`confidence > 0.7`, else nothing. -/
def fetchGate (msg : Str × Str × Str) : Option ReservationData :=
  match classifyEmail msg.2.1 msg.2.2 with
  | some info =>
    if 7/10 < info.confidence then some (convertInfo msg.1 msg.2.1 info) else none
  | none => none

/-- The id the labeler is invoked with, per message (same gate). -/
def labelGate (msg : Str × Str × Str) : Option Str :=
  (fetchGate msg).map (fun r => r.message_id)

/-- Message data for claim C10's witness. -/
def c10Mid : Str := strOf "m1"

def c10Subject : Str := strOf "HALLELよりご予約確認"

def c10Body : Str :=
  strOf "HALLEL 渋谷店 ご予約ありがとうございます 2025年11月02日 10:00~11:00 田中 様"

/-- The record `classify_email` produces for the witness body. -/
def c10Info : ReservationInfo :=
  { action_type := strOf "booking"
    date := strOf "2025-11-02"
    start_time := strOf "10:00"
    end_time := strOf "11:00"
    customer_name := strOf "HALLEL 渋谷店 ご予約ありがとうございます 2025年11月02日 10:00~11:00 田中"
    studio := strOf "不明"
    duration_minutes := 60
    confidence := 9/10
    raw_text := c10Body }

/-! ## Proofs -/

/-! ## Lemmas about the schedule store -/

theorem lookupD_append_single (st : Store) (d : Str) (l : List Slot)
    (h : lookupD st d = none) : lookupD (st ++ [(d, l)]) d = some l := by
  induction st with
  | nil => simp [lookupD]
  | cons p rest ih =>
    obtain ⟨k, v⟩ := p
    by_cases hk : (k == d) = true
    · simp [lookupD, hk] at h
    · simp only [List.cons_append, lookupD, Bool.not_eq_true] at h ⊢
      simp only [Bool.not_eq_true] at hk
      simp only [hk] at h ⊢
      · exact ih h

theorem lookupD_append_single_other (st : Store) (d d' : Str) (l : List Slot)
    (h : ¬d = d') : lookupD (st ++ [(d, l)]) d' = lookupD st d' := by
  induction st with
  | nil => simp [lookupD, beq_iff_eq, h]
  | cons p rest ih =>
    obtain ⟨k, v⟩ := p
    by_cases hk : (k == d') = true
    · simp [lookupD, hk]
    · simp only [Bool.not_eq_true] at hk
      simp [lookupD, hk, ih]

theorem lookupD_ensureKey_self (st : Store) (d : Str) :
    lookupD (ensureKey st d) d = some (slotsOf st d) := by
  unfold ensureKey slotsOf
  cases h : lookupD st d with
  | some v => simp [h]
  | none => simp [h, lookupD_append_single st d [] h]

theorem lookupD_ensureKey_other (st : Store) (d d' : Str) (h : ¬d = d') :
    lookupD (ensureKey st d) d' = lookupD st d' := by
  unfold ensureKey
  cases hl : lookupD st d with
  | some v => simp
  | none => simp [lookupD_append_single_other st d d' [] h]

theorem lookupD_setSlots_self (st : Store) (d : Str) (l : List Slot) :
    lookupD (setSlots st d l) d = some l := by
  induction st with
  | nil => simp [setSlots, lookupD]
  | cons p rest ih =>
    obtain ⟨k, v⟩ := p
    by_cases hk : (k == d) = true
    · simp [setSlots, lookupD, hk]
    · simp only [Bool.not_eq_true] at hk
      simp [setSlots, lookupD, hk, ih]

theorem lookupD_setSlots_other (st : Store) (d d' : Str) (l : List Slot)
    (h : ¬d = d') : lookupD (setSlots st d l) d' = lookupD st d' := by
  induction st with
  | nil => simp [setSlots, lookupD, beq_iff_eq, h]
  | cons p rest ih =>
    obtain ⟨k, v⟩ := p
    by_cases hk : (k == d) = true
    · have hkd : k = d := by simpa [beq_iff_eq] using hk
      have : (d == d') = false := by simp [beq_iff_eq, h]
      simp [setSlots, lookupD, hk, this, hkd]
    · simp only [Bool.not_eq_true] at hk
      simp [setSlots, lookupD, hk, ih]

theorem slotsOf_ensureKey_self (st : Store) (d : Str) :
    slotsOf (ensureKey st d) d = slotsOf st d := by
  unfold slotsOf
  rw [lookupD_ensureKey_self]
  rfl

theorem slotsOf_ensureKey_other (st : Store) (d d' : Str) (h : ¬d = d') :
    slotsOf (ensureKey st d) d' = slotsOf st d' := by
  unfold slotsOf
  rw [lookupD_ensureKey_other st d d' h]

theorem slotsOf_setSlots_self (st : Store) (d : Str) (l : List Slot) :
    slotsOf (setSlots st d l) d = l := by
  unfold slotsOf
  rw [lookupD_setSlots_self]
  rfl

theorem slotsOf_setSlots_other (st : Store) (d d' : Str) (l : List Slot)
    (h : ¬d = d') : slotsOf (setSlots st d l) d' = slotsOf st d' := by
  unfold slotsOf
  rw [lookupD_setSlots_other st d d' l h]

theorem ensureKey_of_isSome (st : Store) (d : Str)
    (h : (lookupD st d).isSome = true) : ensureKey st d = st := by
  unfold ensureKey
  simp [h]

theorem ensureKey_setSlots_self (st : Store) (d : Str) (l : List Slot) :
    ensureKey (setSlots st d l) d = setSlots st d l := by
  apply ensureKey_of_isSome
  rw [lookupD_setSlots_self]
  rfl

/-! ## Lemmas about the cancellation scan -/

theorem cancelScan_eq_none (p : Slot → Bool) (l : List Slot)
    (h : ∀ x ∈ l, p x = false) : cancelScan p l = none := by
  induction l with
  | nil => rfl
  | cons s rest ih =>
    have hs := h s (List.mem_cons_self s rest)
    simp [cancelScan, hs, ih (fun x hx => h x (List.mem_cons_of_mem s hx))]

theorem cancelScan_first (p : Slot → Bool) (l1 : List Slot) (s : Slot) (l2 : List Slot)
    (h1 : ∀ x ∈ l1, p x = false) (hs : p s = true) :
    cancelScan p (l1 ++ s :: l2) = some (l1 ++ l2) := by
  induction l1 with
  | nil => simp [cancelScan, hs]
  | cons a rest ih =>
    have ha := h1 a (List.mem_cons_self a rest)
    simp [cancelScan, ha, ih (fun x hx => h1 x (List.mem_cons_of_mem a hx))]

/-! ## Evaluation lemmas for the merge paths -/

theorem applyGmailEvent_booking_new (st : Store) (ev : GmailEvent)
    (hact : ev.action_type = strOf "booking")
    (hnodup : (slotsOf st ev.date).any
      (fun s => s.start == ev.start && s.customer_name == ev.customer_name) = false) :
    applyGmailEvent st ev =
      (setSlots (ensureKey st ev.date) ev.date (slotsOf st ev.date ++ [gmailSlot ev]),
       Outcome.added) := by
  have hc : (ev.action_type == strOf "cancellation") = false := by rw [hact]; decide
  have hb : (ev.action_type == strOf "booking") = true := by rw [hact]; decide
  unfold applyGmailEvent
  simp [hc, hb, slotsOf_ensureKey_self, hnodup]

theorem applyGmailEvent_booking_dup (st : Store) (ev : GmailEvent)
    (hact : ev.action_type = strOf "booking")
    (hdup : (slotsOf st ev.date).any
      (fun s => s.start == ev.start && s.customer_name == ev.customer_name) = true) :
    applyGmailEvent st ev = (ensureKey st ev.date, Outcome.skippedDuplicate) := by
  have hc : (ev.action_type == strOf "cancellation") = false := by rw [hact]; decide
  have hb : (ev.action_type == strOf "booking") = true := by rw [hact]; decide
  unfold applyGmailEvent
  simp [hc, hb, slotsOf_ensureKey_self, hdup]

theorem applyGmailEvent_cancel (st : Store) (ev : GmailEvent)
    (hact : ev.action_type = strOf "cancellation") :
    applyGmailEvent st ev =
      (match cancelScan (fun s => s.start == ev.start && s.customer_name == ev.customer_name)
          (slotsOf st ev.date) with
       | some slots' => (setSlots (ensureKey st ev.date) ev.date slots', Outcome.cancelled)
       | none => (ensureKey st ev.date, Outcome.cancelNotFound)) := by
  have hc : (ev.action_type == strOf "cancellation") = true := by rw [hact]; decide
  unfold applyGmailEvent
  simp [hc, slotsOf_ensureKey_self]

theorem applyWebhookEvent_booking_new (st : Store) (ev : WebhookEvent)
    (hact : ev.is_cancellation = false)
    (hnodup : (slotsOf st ev.date).any
      (fun s => s.start == ev.start && s.endTime == ev.endTime &&
        s.customer_name == ev.customer_name) = false) :
    applyWebhookEvent st ev =
      (setSlots (ensureKey st ev.date) ev.date (slotsOf st ev.date ++ [webhookSlot ev]),
       Outcome.added) := by
  unfold applyWebhookEvent
  simp [hact, slotsOf_ensureKey_self, hnodup]

theorem applyWebhookEvent_booking_dup (st : Store) (ev : WebhookEvent)
    (hact : ev.is_cancellation = false)
    (hdup : (slotsOf st ev.date).any
      (fun s => s.start == ev.start && s.endTime == ev.endTime &&
        s.customer_name == ev.customer_name) = true) :
    applyWebhookEvent st ev = (ensureKey st ev.date, Outcome.skippedDuplicate) := by
  unfold applyWebhookEvent
  simp [hact, slotsOf_ensureKey_self, hdup]

theorem applyWebhookEvent_cancel (st : Store) (ev : WebhookEvent)
    (hact : ev.is_cancellation = true) :
    applyWebhookEvent st ev =
      (match cancelScan (fun s => s.start == ev.start && s.typ == ev.typ)
          (slotsOf st ev.date) with
       | some slots' => (setSlots (ensureKey st ev.date) ev.date slots', Outcome.cancelled)
       | none => (ensureKey st ev.date, Outcome.cancelNotFound)) := by
  unfold applyWebhookEvent
  simp [hact, slotsOf_ensureKey_self]

theorem applyHacomonoEvent_new (st : Store) (ev : HacomonoEvent)
    (hnodup : (slotsOf st ev.date).any
      (fun s => s.start == ev.start && s.source == ev.source) = false) :
    applyHacomonoEvent st ev =
      (setSlots (ensureKey st ev.date) ev.date
        (slotsOf st ev.date ++ [hacomonoSlot ev (slotsOf st ev.date)]),
       Outcome.added) := by
  unfold applyHacomonoEvent
  simp [slotsOf_ensureKey_self, hnodup]

/-- C1, counterexample: on a store that already contains a duplicate slot,
the *first* application of the Booking event is Skipped-Duplicate, not
Added — the claim's "for every schedule store … the first application
appends one slot (outcome Added)" is false. -/
theorem claim_C1_counterexample :
    c1Ev.action_type = strOf "booking" ∧
    ¬(applyGmailEvent c1Store c1Ev).2 = Outcome.added ∧
    (applyGmailEvent c1Store c1Ev).2 = Outcome.skippedDuplicate ∧
    (applyGmailEvent c1Store c1Ev).1 = c1Store := by decide

/-- C1 (amended): for every Booking event and every schedule store *that
does not already contain a duplicate of the event*, the first application
appends exactly one slot (outcome Added) and any second application of a
Booking event with the same matching key — `(start, customer_name)` for
the Gmail-sync policy, `(start, end, customer_name)` for the webhook
policy, the `message_id` playing no role — is Skipped-Duplicate and
leaves the store unchanged. -/
theorem claim_C1 :
    ∀ (st : Store) (ev : GmailEvent) (wst : Store) (wev : WebhookEvent),
    ev.action_type = strOf "booking" →
    (∀ s ∈ slotsOf st ev.date, ¬(s.start = ev.start ∧ s.customer_name = ev.customer_name)) →
    wev.is_cancellation = false →
    (∀ s ∈ slotsOf wst wev.date,
      ¬(s.start = wev.start ∧ s.endTime = wev.endTime ∧ s.customer_name = wev.customer_name)) →
    ((applyGmailEvent st ev).2 = Outcome.added ∧
     slotsOf (applyGmailEvent st ev).1 ev.date = slotsOf st ev.date ++ [gmailSlot ev] ∧
     (∀ ev2 : GmailEvent, ev2.action_type = strOf "booking" → ev2.date = ev.date →
       ev2.start = ev.start → ev2.customer_name = ev.customer_name →
       applyGmailEvent (applyGmailEvent st ev).1 ev2 =
         ((applyGmailEvent st ev).1, Outcome.skippedDuplicate))) ∧
    ((applyWebhookEvent wst wev).2 = Outcome.added ∧
     slotsOf (applyWebhookEvent wst wev).1 wev.date = slotsOf wst wev.date ++ [webhookSlot wev] ∧
     (∀ wev2 : WebhookEvent, wev2.is_cancellation = false → wev2.date = wev.date →
       wev2.start = wev.start → wev2.endTime = wev.endTime →
       wev2.customer_name = wev.customer_name →
       applyWebhookEvent (applyWebhookEvent wst wev).1 wev2 =
         ((applyWebhookEvent wst wev).1, Outcome.skippedDuplicate))) := by
  intro st ev wst wev hact hnodup hwact hwnodup
  have hany : (slotsOf st ev.date).any
      (fun s => s.start == ev.start && s.customer_name == ev.customer_name) = false := by
    simp only [List.any_eq_false, Bool.and_eq_true, beq_iff_eq]
    exact hnodup
  have hwany : (slotsOf wst wev.date).any
      (fun s => s.start == wev.start && s.endTime == wev.endTime &&
        s.customer_name == wev.customer_name) = false := by
    simp only [List.any_eq_false, Bool.and_eq_true, beq_iff_eq]
    intro x hx hcon
    exact hwnodup x hx ⟨hcon.1.1, hcon.1.2, hcon.2⟩
  have h1 := applyGmailEvent_booking_new st ev hact hany
  have hw1 := applyWebhookEvent_booking_new wst wev hwact hwany
  constructor
  · rw [h1]
    refine ⟨rfl, slotsOf_setSlots_self _ _ _, ?_⟩
    intro ev2 h2act h2d h2s h2c
    have hdup : (slotsOf (setSlots (ensureKey st ev.date) ev.date
        (slotsOf st ev.date ++ [gmailSlot ev])) ev2.date).any
        (fun s => s.start == ev2.start && s.customer_name == ev2.customer_name) = true := by
      rw [h2d, slotsOf_setSlots_self]
      refine List.any_eq_true.mpr ⟨gmailSlot ev, ?_, ?_⟩
      · exact List.mem_append_right _ (List.mem_singleton.mpr rfl)
      · simp [gmailSlot, h2s, h2c]
    have h2 := applyGmailEvent_booking_dup _ ev2 h2act hdup
    rw [h2, h2d, ensureKey_setSlots_self]
  · rw [hw1]
    refine ⟨rfl, slotsOf_setSlots_self _ _ _, ?_⟩
    intro wev2 h2act h2d h2s h2e h2c
    have hdup : (slotsOf (setSlots (ensureKey wst wev.date) wev.date
        (slotsOf wst wev.date ++ [webhookSlot wev])) wev2.date).any
        (fun s => s.start == wev2.start && s.endTime == wev2.endTime &&
          s.customer_name == wev2.customer_name) = true := by
      rw [h2d, slotsOf_setSlots_self]
      refine List.any_eq_true.mpr ⟨webhookSlot wev, ?_, ?_⟩
      · exact List.mem_append_right _ (List.mem_singleton.mpr rfl)
      · simp [webhookSlot, h2s, h2e, h2c]
    have h2 := applyWebhookEvent_booking_dup _ wev2 h2act hdup
    rw [h2, h2d, ensureKey_setSlots_self]

/-- C1, witness: applying the amended theorem to an empty store — the
Booking event is Added on both policies. -/
theorem claim_C1_witness :
    (applyGmailEvent [] c1Ev).2 = Outcome.added ∧
    (applyWebhookEvent [] c1wEv).2 = Outcome.added := by
  have h := claim_C1 [] c1Ev [] c1wEv (by decide) (by decide) (by decide) (by decide)
  exact ⟨h.1.1, h.2.1⟩

/-- C2, counterexample: a Cancellation event on an empty store reports
Cancel-Not-Found, but the store is *not* left completely unchanged — the
merge paths first execute
`if date not in reservations_db: reservations_db[date] = []`, so a new
key with an empty slot list is created. -/
theorem claim_C2_counterexample :
    (applyGmailEvent [] c2Ev).2 = Outcome.cancelNotFound ∧
    ¬(applyGmailEvent [] c2Ev).1 = ([] : Store) ∧
    (applyGmailEvent [] c2Ev).1 = [(c2Ev.date, [])] := by decide

/-- C2 (amended): the merge engine scans the date's slot list in insertion
order and removes only the first slot matching `(start, customer_name)`
(Gmail sync) or `(start, type)` (webhook), reporting Cancelled; when no
slot matches it reports Cancel-Not-Found, removes no slot and leaves every
date's slot list unchanged — but when the event's date was absent from the
store, an empty entry for that date is created (so the store is not
literally unchanged). -/
theorem claim_C2 :
    ∀ (st : Store) (ev : GmailEvent) (wst : Store) (wev : WebhookEvent),
    ev.action_type = strOf "cancellation" →
    wev.is_cancellation = true →
    (((∀ s ∈ slotsOf st ev.date, ¬(s.start = ev.start ∧ s.customer_name = ev.customer_name)) →
      (applyGmailEvent st ev).2 = Outcome.cancelNotFound ∧
      (applyGmailEvent st ev).1 = ensureKey st ev.date ∧
      (∀ d, slotsOf (applyGmailEvent st ev).1 d = slotsOf st d)) ∧
     (∀ (l1 : List Slot) (s : Slot) (l2 : List Slot),
      slotsOf st ev.date = l1 ++ s :: l2 →
      (∀ x ∈ l1, ¬(x.start = ev.start ∧ x.customer_name = ev.customer_name)) →
      s.start = ev.start → s.customer_name = ev.customer_name →
      (applyGmailEvent st ev).2 = Outcome.cancelled ∧
      slotsOf (applyGmailEvent st ev).1 ev.date = l1 ++ l2 ∧
      (∀ d, ¬d = ev.date → slotsOf (applyGmailEvent st ev).1 d = slotsOf st d))) ∧
    (((∀ s ∈ slotsOf wst wev.date, ¬(s.start = wev.start ∧ s.typ = wev.typ)) →
      (applyWebhookEvent wst wev).2 = Outcome.cancelNotFound ∧
      (applyWebhookEvent wst wev).1 = ensureKey wst wev.date ∧
      (∀ d, slotsOf (applyWebhookEvent wst wev).1 d = slotsOf wst d)) ∧
     (∀ (l1 : List Slot) (s : Slot) (l2 : List Slot),
      slotsOf wst wev.date = l1 ++ s :: l2 →
      (∀ x ∈ l1, ¬(x.start = wev.start ∧ x.typ = wev.typ)) →
      s.start = wev.start → s.typ = wev.typ →
      (applyWebhookEvent wst wev).2 = Outcome.cancelled ∧
      slotsOf (applyWebhookEvent wst wev).1 wev.date = l1 ++ l2 ∧
      (∀ d, ¬d = wev.date → slotsOf (applyWebhookEvent wst wev).1 d = slotsOf wst d))) := by
  intro st ev wst wev hact hwact
  have hg := applyGmailEvent_cancel st ev hact
  have hw := applyWebhookEvent_cancel wst wev hwact
  constructor
  · constructor
    · intro hnone
      have hscan : cancelScan
          (fun s => s.start == ev.start && s.customer_name == ev.customer_name)
          (slotsOf st ev.date) = none := by
        apply cancelScan_eq_none
        intro x hx
        apply Bool.eq_false_iff.mpr
        intro htrue
        simp only [Bool.and_eq_true, beq_iff_eq] at htrue
        exact (hnone x hx) ⟨htrue.1, htrue.2⟩
      rw [hscan] at hg
      rw [hg]
      refine ⟨rfl, rfl, ?_⟩
      intro d
      by_cases hd : d = ev.date
      · rw [hd]; exact slotsOf_ensureKey_self st ev.date
      · exact slotsOf_ensureKey_other st ev.date d (fun h => hd h.symm)
    · intro l1 s l2 hsplit hl1 hstart hcust
      have hscan : cancelScan
          (fun s => s.start == ev.start && s.customer_name == ev.customer_name)
          (slotsOf st ev.date) = some (l1 ++ l2) := by
        rw [hsplit]
        apply cancelScan_first
        · intro x hx
          apply Bool.eq_false_iff.mpr
          intro htrue
          simp only [Bool.and_eq_true, beq_iff_eq] at htrue
          exact (hl1 x hx) ⟨htrue.1, htrue.2⟩
        · simp [hstart, hcust]
      rw [hscan] at hg
      rw [hg]
      refine ⟨rfl, slotsOf_setSlots_self _ _ _, ?_⟩
      intro d hd
      rw [slotsOf_setSlots_other _ _ _ _ (fun h => hd h.symm)]
      exact slotsOf_ensureKey_other st ev.date d (fun h => hd h.symm)
  · constructor
    · intro hnone
      have hscan : cancelScan (fun s => s.start == wev.start && s.typ == wev.typ)
          (slotsOf wst wev.date) = none := by
        apply cancelScan_eq_none
        intro x hx
        apply Bool.eq_false_iff.mpr
        intro htrue
        simp only [Bool.and_eq_true, beq_iff_eq] at htrue
        exact (hnone x hx) ⟨htrue.1, htrue.2⟩
      rw [hscan] at hw
      rw [hw]
      refine ⟨rfl, rfl, ?_⟩
      intro d
      by_cases hd : d = wev.date
      · rw [hd]; exact slotsOf_ensureKey_self wst wev.date
      · exact slotsOf_ensureKey_other wst wev.date d (fun h => hd h.symm)
    · intro l1 s l2 hsplit hl1 hstart htyp
      have hscan : cancelScan (fun s => s.start == wev.start && s.typ == wev.typ)
          (slotsOf wst wev.date) = some (l1 ++ l2) := by
        rw [hsplit]
        apply cancelScan_first
        · intro x hx
          apply Bool.eq_false_iff.mpr
          intro htrue
          simp only [Bool.and_eq_true, beq_iff_eq] at htrue
          exact (hl1 x hx) ⟨htrue.1, htrue.2⟩
        · simp [hstart, htyp]
      rw [hscan] at hw
      rw [hw]
      refine ⟨rfl, slotsOf_setSlots_self _ _ _, ?_⟩
      intro d hd
      rw [slotsOf_setSlots_other _ _ _ _ (fun h => hd h.symm)]
      exact slotsOf_ensureKey_other wst wev.date d (fun h => hd h.symm)

/-- C2, witness: on a concrete store the Gmail-sync cancellation removes
only the first matching slot and reports Cancelled, and on an empty store
it reports Cancel-Not-Found with all slot lists unchanged. -/
theorem claim_C2_witness :
    ((applyGmailEvent c2wStore c2Ev).2 = Outcome.cancelled ∧
     slotsOf (applyGmailEvent c2wStore c2Ev).1 (strOf "2025-12-01") = [c2wOther, c2wSecond]) ∧
    ((applyGmailEvent [] c2Ev).2 = Outcome.cancelNotFound ∧
     slotsOf (applyGmailEvent [] c2Ev).1 (strOf "2025-12-01") = []) := by
  have h := claim_C2 c2wStore c2Ev [] c2whEv (by decide) (by decide)
  have h2 := claim_C2 [] c2Ev [] c2whEv (by decide) (by decide)
  constructor
  · have hfound := h.1.2 [c2wOther] c2wFirst [c2wSecond] (by decide) (by decide)
      (by decide) (by decide)
    exact ⟨hfound.1, hfound.2.1⟩
  · have hnf := h2.1.1 (by decide)
    refine ⟨hnf.1, ?_⟩
    rw [hnf.2.2 (strOf "2025-12-01")]
    rfl

/-- C8, counterexample: the Gmail-sync booking path appends with the
hard-coded `'group': 1`, even though one same-`start` slot already exists
on the date, so the required value would be 2 — the claim fails for this
booking-applying path of the merge engine. -/
theorem claim_C8_counterexample :
    (applyGmailEvent c8Store c8Ev).2 = Outcome.added ∧
    slotsOf (applyGmailEvent c8Store c8Ev).1 (strOf "2025-11-02") = [c8Slot, gmailSlot c8Ev] ∧
    (gmailSlot c8Ev).group = some 1 ∧
    ((slotsOf c8Store (strOf "2025-11-02")).filter
      (fun r => r.start == c8Ev.start)).length + 1 = 2 ∧
    ¬(1 : Nat) = 2 := by decide

/-- C8 (amended): only the hacomono sync path sets the appended slot's
`group` to (number of existing same-`start` slots on the date) + 1; the
Gmail sync path always stores `group = 1` and the webhook path stores no
`group` field at all. -/
theorem claim_C8 :
    ∀ (st : Store) (ev : HacomonoEvent),
    ((∀ s ∈ slotsOf st ev.date, ¬(s.start = ev.start ∧ s.source = ev.source)) →
      (applyHacomonoEvent st ev).2 = Outcome.added ∧
      slotsOf (applyHacomonoEvent st ev).1 ev.date =
        slotsOf st ev.date ++ [hacomonoSlot ev (slotsOf st ev.date)] ∧
      (hacomonoSlot ev (slotsOf st ev.date)).group =
        some (((slotsOf st ev.date).filter (fun r => r.start == ev.start)).length + 1)) ∧
    (∀ gev : GmailEvent, (gmailSlot gev).group = some 1) ∧
    (∀ wev : WebhookEvent, (webhookSlot wev).group = none) := by
  intro st ev
  refine ⟨?_, fun gev => rfl, fun wev => rfl⟩
  intro hnodup
  have hany : (slotsOf st ev.date).any
      (fun s => s.start == ev.start && s.source == ev.source) = false := by
    simp only [List.any_eq_false, Bool.and_eq_true, beq_iff_eq]
    exact hnodup
  have h := applyHacomonoEvent_new st ev hany
  rw [h]
  exact ⟨rfl, slotsOf_setSlots_self _ _ _, rfl⟩

/-- C8, witness: the hacomono path on the concrete store appends with
`group = 2` (one existing same-`start` slot plus one). -/
theorem claim_C8_witness :
    (applyHacomonoEvent c8Store c8hEv).2 = Outcome.added ∧
    (hacomonoSlot c8hEv (slotsOf c8Store c8hEv.date)).group = some 2 := by
  have h := (claim_C8 c8Store c8hEv).1 (by decide)
  refine ⟨h.1, ?_⟩
  rw [h.2.2]
  decide

/-! ## Claim C9 -/

/-- C9, counterexample: `export_logs` appends its audit entry with no
bound check, so a log already holding 200 entries grows to 201 — "after
every operation that adds an entry, the log holds at most 200 entries" is
false for this operation. -/
theorem claim_C9_counterexample :
    (exportLogStep (List.replicate 200 (strOf "entry")) (strOf "export")).length = 201 ∧
    ¬(exportLogStep (List.replicate 200 (strOf "entry")) (strOf "export")).length ≤ 200 := by
  have h : (exportLogStep (List.replicate 200 (strOf "entry")) (strOf "export")).length = 201 := by
    unfold exportLogStep
    rw [List.length_append, List.length_replicate]
    rfl
  exact ⟨h, by rw [h]; omega⟩

/-- C9 (amended): the logging operations `log_reservation_judgment` and
`add_log` append and then evict the oldest entry (FIFO) exactly when the
length would exceed 200, so they keep a log of at most 200 entries at most
200 and never reorder or modify existing entries; the `export_logs` audit
append, however, enforces no bound (see the counterexample). -/
theorem claim_C9 :
    ∀ (log : List Str) (e : Str),
    logTrimStep log e =
      (if (log ++ [e]).length > 200 then (log ++ [e]).drop 1 else log ++ [e]) ∧
    (log.length ≤ 200 → (logTrimStep log e).length ≤ 200) ∧
    (log.length = 200 → logTrimStep log e = log.drop 1 ++ [e]) := by
  intro log e
  have heq : logTrimStep log e =
      (if (log ++ [e]).length > 200 then (log ++ [e]).drop 1 else log ++ [e]) := rfl
  have hlen : (log ++ [e]).length = log.length + 1 := by simp
  refine ⟨heq, ?_, ?_⟩
  · intro hle
    rw [heq]
    by_cases h : (log ++ [e]).length > 200
    · rw [if_pos h, List.length_drop]
      omega
    · rw [if_neg h]
      omega
  · intro h200
    have hgt : (log ++ [e]).length > 200 := by omega
    rw [heq, if_pos hgt, List.drop_append_of_le_length (by omega)]

/-- C9, witness: applying the amended theorem to a log of exactly 200
entries — the bounded append evicts the oldest entry and stays at 200. -/
theorem claim_C9_witness :
    logTrimStep (List.replicate 200 (strOf "entry")) (strOf "x") =
      (List.replicate 200 (strOf "entry")).drop 1 ++ [strOf "x"] ∧
    (logTrimStep (List.replicate 200 (strOf "entry")) (strOf "x")).length ≤ 200 := by
  have h := claim_C9 (List.replicate 200 (strOf "entry")) (strOf "x")
  have hl : (List.replicate 200 (strOf "entry")).length = 200 := List.length_replicate 200 _
  exact ⟨h.2.2 hl, h.2.1 (le_of_eq hl)⟩

/-! ## Claim C3 -/

/-- C3: for every input passing the brand and location filters whose body
contains one of the classifier's cancellation keywords, the determined
action is Cancellation — even when booking keywords co-occur — because the
cancellation-keyword loop runs before any booking-keyword check; hence any
event classify returns carries `action_type = cancellation`. -/
theorem claim_C3 :
    ∀ (subject body : Str),
    isHallelEmail subject body = true →
    (∃ kw ∈ cancellation_keywords, containsSub kw body = true) →
    determineActionType body = some (strOf "cancellation") ∧
    (classifyEmail subject body).all (fun i => i.action_type == strOf "cancellation") = true := by
  intro subject body hfilter hkw
  have hany : cancellation_keywords.any (fun kw => containsSub kw body) = true := by
    rcases hkw with ⟨kw, hmem, hc⟩
    exact List.any_eq_true.mpr ⟨kw, hmem, hc⟩
  have hdet : determineActionType body = some (strOf "cancellation") := by
    unfold determineActionType
    simp [hany]
  refine ⟨hdet, ?_⟩
  unfold classifyEmail
  rw [hfilter, hdet]
  cases hdt : extractDateTime body with
  | none => simp [hdt]
  | some v =>
    obtain ⟨d, st2, en, dur⟩ := v
    simp [hdt, Option.all]

/-- C3, witness: on the concrete body carrying both keyword kinds, the
action is Cancellation. -/
theorem claim_C3_witness :
    determineActionType c3Body = some (strOf "cancellation") ∧
    (classifyEmail c3Subject c3Body).all (fun i => i.action_type == strOf "cancellation") = true :=
  claim_C3 c3Subject c3Body (by decide) (by decide)

/-! ## Claim C6 -/

theorem isEmpty_false_of_length_pos (l : Str) (h : 0 < l.length) : l.isEmpty = false := by
  cases l with
  | nil => simp at h
  | cons a as => rfl

theorem extractDateTime_fields (body : Str) (d st en : Str) (dur : Int)
    (h : extractDateTime body = some (d, st, en, dur)) :
    d.isEmpty = false ∧ st.isEmpty = false ∧ en.isEmpty = false := by
  unfold extractDateTime at h
  cases h1 : reSearch mDateJPAt body with
  | none => rw [h1] at h; exact absurd h (by simp)
  | some v1 =>
    obtain ⟨⟨ys, ms, ds⟩, r1⟩ := v1
    cases h2 : reSearch mTimeTildeAt body with
    | none => rw [h1, h2] at h; exact absurd h (by simp)
    | some v2 =>
      obtain ⟨⟨h1s, m1s, h2s, m2s⟩, r2⟩ := v2
      rw [h1, h2] at h
      simp only [Option.some_inj, Prod.mk.injEq] at h
      obtain ⟨hd, hst, hen, _⟩ := h
      rw [← hd, ← hst, ← hen]
      refine ⟨isEmpty_false_of_length_pos _ ?_, isEmpty_false_of_length_pos _ ?_,
        isEmpty_false_of_length_pos _ ?_⟩ <;>
        · simp only [List.length_append, List.length_singleton, List.length_cons,
            List.length_nil]
          omega

/-- C6: classify returns null whenever the date search or the time-range
search over the body fails, so no partial events are constructed; and any
returned event with `action_type = booking` carries non-empty date, start
and end strings. -/
theorem claim_C6 :
    ∀ (subject body : Str),
    ((reSearch mDateJPAt body = none ∨ reSearch mTimeTildeAt body = none) →
      classifyEmail subject body = none) ∧
    (classifyEmail subject body).all
      (fun i => !(i.action_type == strOf "booking") ||
        (!i.date.isEmpty && !i.start_time.isEmpty && !i.end_time.isEmpty)) = true := by
  intro subject body
  have hdtnone : (reSearch mDateJPAt body = none ∨ reSearch mTimeTildeAt body = none) →
      extractDateTime body = none := by
    intro hfail
    unfold extractDateTime
    rcases hfail with h | h
    · rw [h]
    · cases h1 : reSearch mDateJPAt body with
      | none => rfl
      | some v =>
        obtain ⟨⟨ys, ms, ds⟩, r1⟩ := v
        rw [h]
  constructor
  · intro hfail
    have hdt := hdtnone hfail
    unfold classifyEmail
    by_cases hfil : isHallelEmail subject body = true
    · cases hact : determineActionType body with
      | none => simp [hfil, hact]
      | some a => simp [hfil, hact, hdt]
    · simp only [Bool.not_eq_true] at hfil
      simp [hfil]
  · unfold classifyEmail
    by_cases hfil : isHallelEmail subject body = true
    · cases hact : determineActionType body with
      | none => simp [hfil, hact]
      | some a =>
        cases hdt : extractDateTime body with
        | none => simp [hfil, hact, hdt]
        | some v =>
          obtain ⟨d, st2, en, dur⟩ := v
          have hfields := extractDateTime_fields body d st2 en dur hdt
          simp [hfil, hact, hdt, Option.all, hfields.1, hfields.2.1, hfields.2.2]
    · simp only [Bool.not_eq_true] at hfil
      simp [hfil]

/-- C6, witness: a body with no date pattern is rejected by classify. -/
theorem claim_C6_witness :
    classifyEmail (strOf "HALLEL") (strOf "HALLEL 渋谷店 キャンセル") = none :=
  (claim_C6 (strOf "HALLEL") (strOf "HALLEL 渋谷店 キャンセル")).1 (Or.inl (by decide))

theorem foldl_add_if (p : Str → Bool) (w : ℚ) (l : List Str) (init : ℚ) :
    l.foldl (fun acc kw => if p kw then acc + w else acc) init
      = init + ((l.filter p).length : ℚ) * w := by
  induction l generalizing init with
  | nil => simp
  | cons a rest ih =>
    by_cases ha : p a
    · rw [List.foldl_cons, if_pos ha, ih, List.filter_cons_of_pos ha, List.length_cons]
      push_cast
      ring
    · rw [List.foldl_cons, if_neg ha, ih, List.filter_cons_of_neg ha]

theorem if_bonus_nonneg (b : Bool) : 0 ≤ (if b then (1 : ℚ)/10 else 0) := by
  cases b <;> norm_num

theorem keywordWeight_nonneg (a : Str) : 0 ≤ keywordWeight a := by
  unfold keywordWeight
  split
  · norm_num
  · split <;> norm_num

theorem if_bonus_mono (b1 b2 : Bool) (h : b1 = true → b2 = true) :
    (if b1 then (1 : ℚ)/10 else 0) ≤ (if b2 then (1 : ℚ)/10 else 0) := by
  cases b1 with
  | false => cases b2 <;> norm_num
  | true => rw [h rfl]

theorem calculateConfidence_eq (action_type body : Str) :
    calculateConfidence action_type body =
      min ((1 : ℚ)/2 + (matchedKeywordCount action_type body : ℚ) * keywordWeight action_type +
        (if dateSignal body then (1 : ℚ)/10 else 0) +
        (if timeSignal body then (1 : ℚ)/10 else 0) +
        (if brandSignal body then (1 : ℚ)/10 else 0)) 1 := by
  unfold calculateConfidence matchedKeywordCount keywordWeight dateSignal timeSignal brandSignal
  by_cases hb : (action_type == strOf "booking") = true <;>
    by_cases hc : (action_type == strOf "cancellation") = true <;>
      by_cases hd : (reSearch mDateJPAt body).isSome = true <;>
        by_cases ht : (reSearch mTimeTildeAt body).isSome = true <;>
          by_cases hh : containsSub (strOf "HALLEL") body = true <;>
            simp [hb, hc, hd, ht, hh, foldl_add_if]

/-- C5: the confidence equals 0.5 plus 0.1 per matched booking keyword (or
0.15 per matched cancellation keyword, keywords counted independently),
plus 0.1 each for a structured date match, a structured time match and the
brand marker literal, clamped at 1.0; consequently it lies in [0, 1] and
is monotone non-decreasing in the matched signals. -/
theorem claim_C5 :
    ∀ (action_type body : Str),
    calculateConfidence action_type body =
      min ((1 : ℚ)/2 + (matchedKeywordCount action_type body : ℚ) * keywordWeight action_type +
        (if dateSignal body then (1 : ℚ)/10 else 0) +
        (if timeSignal body then (1 : ℚ)/10 else 0) +
        (if brandSignal body then (1 : ℚ)/10 else 0)) 1 ∧
    0 ≤ calculateConfidence action_type body ∧
    calculateConfidence action_type body ≤ 1 ∧
    (∀ body2 : Str,
      matchedKeywordCount action_type body ≤ matchedKeywordCount action_type body2 →
      (dateSignal body = true → dateSignal body2 = true) →
      (timeSignal body = true → timeSignal body2 = true) →
      (brandSignal body = true → brandSignal body2 = true) →
      calculateConfidence action_type body ≤ calculateConfidence action_type body2) := by
  intro action_type body
  have harg : ∀ b : Str, 0 ≤ (1 : ℚ)/2 +
      (matchedKeywordCount action_type b : ℚ) * keywordWeight action_type +
      (if dateSignal b then (1 : ℚ)/10 else 0) +
      (if timeSignal b then (1 : ℚ)/10 else 0) +
      (if brandSignal b then (1 : ℚ)/10 else 0) := by
    intro b
    have h1 : 0 ≤ (matchedKeywordCount action_type b : ℚ) * keywordWeight action_type :=
      mul_nonneg (Nat.cast_nonneg _) (keywordWeight_nonneg action_type)
    have h2 := if_bonus_nonneg (dateSignal b)
    have h3 := if_bonus_nonneg (timeSignal b)
    have h4 := if_bonus_nonneg (brandSignal b)
    linarith
  refine ⟨calculateConfidence_eq action_type body, ?_, ?_, ?_⟩
  · rw [calculateConfidence_eq]
    exact le_min (harg body) (by norm_num)
  · rw [calculateConfidence_eq]
    exact min_le_right _ _
  · intro body2 hkw hd ht hh
    rw [calculateConfidence_eq, calculateConfidence_eq]
    apply min_le_min _ le_rfl
    have h1 : (matchedKeywordCount action_type body : ℚ) * keywordWeight action_type ≤
        (matchedKeywordCount action_type body2 : ℚ) * keywordWeight action_type :=
      mul_le_mul_of_nonneg_right (Nat.cast_le.mpr hkw) (keywordWeight_nonneg action_type)
    have h2 := if_bonus_mono (dateSignal body) (dateSignal body2) hd
    have h3 := if_bonus_mono (timeSignal body) (timeSignal body2) ht
    have h4 := if_bonus_mono (brandSignal body) (brandSignal body2) hh
    linarith

/-- C5, witness: on concrete bodies the confidence is within bounds and
monotone under adding matched signals. -/
theorem claim_C5_witness :
    0 ≤ calculateConfidence (strOf "booking") c5Body1 ∧
    calculateConfidence (strOf "booking") c5Body2 ≤ 1 ∧
    calculateConfidence (strOf "booking") c5Body1 ≤
      calculateConfidence (strOf "booking") c5Body2 := by
  have h1 := claim_C5 (strOf "booking") c5Body1
  have h2 := claim_C5 (strOf "booking") c5Body2
  exact ⟨h1.2.1, h2.2.2.1,
    h1.2.2.2 c5Body2 (by decide) (by decide) (by decide) (by decide)⟩

/-! ## Claim C7 -/

theorem digitsToNat_append_single (s : Str) (c : Char) :
    digitsToNat (s ++ [c]) = digitsToNat s * 10 + (c.toNat - '0'.toNat) := by
  unfold digitsToNat
  rw [List.foldl_append]
  rfl

theorem digitCharVal (r : Nat) (h : r < 10) :
    (Char.ofNat ('0'.toNat + r)).toNat = '0'.toNat + r := by
  interval_cases r <;> rfl

theorem digitsToNat_natDigitsAux (fuel n : Nat) (h : n < 10 ^ fuel) :
    digitsToNat (natDigitsAux fuel n) = n := by
  induction fuel generalizing n with
  | zero =>
    simp only [pow_zero, Nat.lt_one_iff] at h
    subst h
    rfl
  | succ f ih =>
    cases n with
    | zero => rfl
    | succ k =>
      rw [show natDigitsAux (f + 1) (k + 1) =
          natDigitsAux f ((k + 1) / 10) ++ [Char.ofNat ('0'.toNat + (k + 1) % 10)] from rfl]
      rw [digitsToNat_append_single, digitCharVal _ (Nat.mod_lt _ (by norm_num))]
      have hdiv : (k + 1) / 10 < 10 ^ f := by
        rw [Nat.div_lt_iff_lt_mul (by norm_num)]
        calc k + 1 < 10 ^ (f + 1) := h
        _ = 10 ^ f * 10 := by rw [pow_succ]
      rw [ih _ hdiv]
      omega

theorem digitsToNat_natToStr (n : Nat) : digitsToNat (natToStr n) = n := by
  unfold natToStr
  by_cases h : n = 0
  · simp [h]
    rfl
  · simp only [h, beq_iff_eq, if_neg h]
    apply digitsToNat_natDigitsAux
    calc n < 10 ^ n := Nat.lt_pow_self (by norm_num) n
    _ ≤ 10 ^ (n + 1) := Nat.pow_le_pow_right (by norm_num) (Nat.le_succ n)

theorem foldl_replicate_zeroChar (k : Nat) :
    (List.replicate k '0').foldl (fun n c => n * 10 + (c.toNat - '0'.toNat)) 0 = 0 := by
  induction k with
  | zero => rfl
  | succ m ih => rw [List.replicate_succ, List.foldl_cons]; simpa using ih

theorem digitsToNat_zfill (w : Nat) (s : Str) :
    digitsToNat (zfill w s) = digitsToNat s := by
  unfold zfill digitsToNat
  rw [List.foldl_append, foldl_replicate_zeroChar]

theorem digitsToNat_fmt02 (n : Nat) : digitsToNat (fmt02 n) = n := by
  unfold fmt02
  rw [digitsToNat_zfill, digitsToNat_natToStr]

theorem mem_natDigitsAux_isDigit (fuel n : Nat) (c : Char)
    (h : c ∈ natDigitsAux fuel n) : isDigitCh c = true := by
  induction fuel generalizing n with
  | zero => simp [natDigitsAux] at h
  | succ f ih =>
    cases n with
    | zero => simp [natDigitsAux] at h
    | succ k =>
      rw [show natDigitsAux (f + 1) (k + 1) =
          natDigitsAux f ((k + 1) / 10) ++ [Char.ofNat ('0'.toNat + (k + 1) % 10)] from rfl] at h
      rcases List.mem_append.mp h with h2 | h2
      · exact ih _ h2
      · rw [List.mem_singleton.mp h2]
        have hr : (k + 1) % 10 < 10 := Nat.mod_lt _ (by norm_num)
        revert hr
        generalize (k + 1) % 10 = r
        intro hr
        interval_cases r <;> rfl

theorem mem_fmt02_isDigit (n : Nat) (c : Char) (h : c ∈ fmt02 n) : isDigitCh c = true := by
  unfold fmt02 zfill natToStr at h
  rcases List.mem_append.mp h with h2 | h2
  · rw [List.eq_of_mem_replicate h2]; rfl
  · by_cases hn : n = 0
    · simp only [hn] at h2
      rw [List.mem_singleton.mp h2]
      rfl
    · simp only [beq_iff_eq, if_neg hn] at h2
      exact mem_natDigitsAux_isDigit _ _ _ h2

theorem isDigitCh_ne_colon (c : Char) (h : isDigitCh c = true) : ¬c = ':' := by
  intro hc
  rw [hc] at h
  exact absurd h (by decide)

theorem splitOnCh_no_sep (sep : Char) (a : Str) (h : ∀ x ∈ a, ¬x = sep) :
    splitOnCh sep a = [a] := by
  induction a with
  | nil => rfl
  | cons y ys ih =>
    have hy : (y == sep) = false := by
      apply Bool.eq_false_iff.mpr
      intro ht
      exact (h y (List.mem_cons_self y ys)) (by simpa [beq_iff_eq] using ht)
    unfold splitOnCh
    rw [hy]
    simp only [Bool.false_eq_true, if_false]
    rw [ih (fun x hx => h x (List.mem_cons_of_mem y hx))]

theorem splitOnCh_cons (sep y : Char) (cs : Str) :
    splitOnCh sep (y :: cs) =
      (if y == sep then [] :: splitOnCh sep cs
       else
        match splitOnCh sep cs with
        | [] => [[y]]
        | r :: rs => (y :: r) :: rs) := rfl

theorem splitOnCh_append_sep (sep : Char) (a b : Str) (h : ∀ x ∈ a, ¬x = sep) :
    splitOnCh sep (a ++ sep :: b) = a :: splitOnCh sep b := by
  induction a with
  | nil =>
    rw [List.nil_append, splitOnCh_cons]
    simp
  | cons y ys ih =>
    have hy : (y == sep) = false := by
      apply Bool.eq_false_iff.mpr
      intro ht
      exact (h y (List.mem_cons_self y ys)) (by simpa [beq_iff_eq] using ht)
    have ih2 := ih (fun x hx => h x (List.mem_cons_of_mem y hx))
    rw [List.cons_append, splitOnCh_cons, hy]
    simp only [Bool.false_eq_true, if_false]
    rw [ih2]

theorem synthEndTime_fmt (h m : Nat) (hm : m < 60) :
    synthEndTime (fmt02 h ++ [':'] ++ fmt02 m) =
      fmt02 (if m + 30 ≥ 60 then h + 2 else h + 1) ++ [':'] ++ fmt02 ((m + 30) % 60) := by
  have hsplit : splitOnCh ':' (fmt02 h ++ [':'] ++ fmt02 m) = [fmt02 h, fmt02 m] := by
    rw [List.append_assoc, List.singleton_append]
    rw [splitOnCh_append_sep ':' (fmt02 h) (fmt02 m)
      (fun x hx => isDigitCh_ne_colon x (mem_fmt02_isDigit h x hx))]
    rw [splitOnCh_no_sep ':' (fmt02 m)
      (fun x hx => isDigitCh_ne_colon x (mem_fmt02_isDigit m x hx))]
  unfold synthEndTime
  rw [List.append_assoc, List.singleton_append] at hsplit ⊢
  rw [hsplit]
  simp only [List.getD_cons_zero, List.getD_cons_succ, digitsToNat_fmt02]
  by_cases hc : m + 30 ≥ 60
  · rw [if_pos hc, if_pos hc]
    have : m + 30 - 60 = (m + 30) % 60 := by omega
    rw [this]
  · rw [if_neg hc, if_neg hc]
    rw [Nat.mod_eq_of_lt (show m + 30 < 60 by omega)]

/-- C7 (amended): when the legacy parser finds a date and exactly one time
endpoint, the synthesized end time is start + 1 hour 30 minutes with
minute overflow carried into the hour, but the hour is *not* reduced
modulo 24 — there is no midnight rollover, so start 23:45 yields end
25:15, not 01:15. -/
theorem claim_C7 :
    ∀ (cy : Nat) (body : Str) (d t : Str),
    legacyDateFound cy body = some d →
    legacyTimesFound body = [t] →
    parseReservationInfoDT cy body = some (d, t, synthEndTime t) ∧
    (∀ (h m : Nat), m < 60 →
      synthEndTime (fmt02 h ++ [':'] ++ fmt02 m) =
        fmt02 (if m + 30 ≥ 60 then h + 2 else h + 1) ++ [':'] ++ fmt02 ((m + 30) % 60) ∧
      (if m + 30 ≥ 60 then h + 2 else h + 1) * 60 + (m + 30) % 60 = h * 60 + m + 90) := by
  intro cy body d t hd ht
  constructor
  · unfold parseReservationInfoDT
    rw [hd, ht]
  · intro h m hm
    refine ⟨synthEndTime_fmt h m hm, ?_⟩
    by_cases hc : m + 30 ≥ 60
    · rw [if_pos hc]; omega
    · rw [if_neg hc]; omega

/-- C7, counterexample: for the body `"2025/09/24 23:45"` (one date, one
time) the synthesized end is `"25:15"`, not the `"01:15"` the claim's
midnight rollover would require. -/
theorem claim_C7_counterexample :
    parseReservationInfoDT 2025 (strOf "2025/09/24 23:45") =
      some (strOf "2025-09-24", strOf "23:45", strOf "25:15") ∧
    ¬(strOf "25:15") = strOf "01:15" := by decide

/-- C7, witness: applying the amended theorem to the concrete body — the
parse triple carries the synthesized end, which equals start + 90 minutes
without a modulo-24 reduction. -/
theorem claim_C7_witness :
    parseReservationInfoDT 2025 (strOf "2025/09/24 23:45") =
      some (strOf "2025-09-24", strOf "23:45", synthEndTime (strOf "23:45")) ∧
    synthEndTime (strOf "23:45") = strOf "25:15" := by
  have h := claim_C7 2025 (strOf "2025/09/24 23:45") (strOf "2025-09-24") (strOf "23:45")
    (by decide) (by decide)
  exact ⟨h.1, by decide⟩

/-! ## Claim C4 -/

theorem classifyEmail_none_of_filter (subject body : Str)
    (h : isHallelEmail subject body = false) : classifyEmail subject body = none := by
  unfold classifyEmail
  simp [h]

theorem isHallelEmail_false_of_hanzomon (subject body : Str)
    (h : containsSub (strOf "半蔵門店") body = true ∨
      containsSub (strOf "hanzomon") (lowerStr body) = true) :
    isHallelEmail subject body = false := by
  unfold isHallelEmail
  by_cases hb : ([strOf "HALLEL", strOf "hallel"].any
      (fun ind => containsSub (lowerStr ind) (lowerStr (subject ++ [' '] ++ body)))) = true
  · rcases h with h | h <;> simp [hb, h]
  · simp only [Bool.not_eq_true] at hb
    simp only [List.any_cons, List.any_nil, Bool.or_false, List.append_assoc,
      List.singleton_append, Bool.or_eq_false_iff] at hb
    simp [hb.1, hb.2]

theorem isHallelEmail_shibuya (subject body : Str) (h : isHallelEmail subject body = true) :
    containsSub (strOf "渋谷店") body = true ∨
    containsSub (strOf "shibuya") (lowerStr body) = true := by
  unfold isHallelEmail at h
  by_cases hb : ([strOf "HALLEL", strOf "hallel"].any
      (fun ind => containsSub (lowerStr ind) (lowerStr (subject ++ [' '] ++ body)))) = true
  · simp only [hb, Bool.not_true, Bool.false_eq_true, if_false] at h
    by_cases hz : (containsSub (strOf "半蔵門店") body ||
        containsSub (strOf "hanzomon") (lowerStr body)) = true
    · simp [hz] at h
    · simp only [Bool.not_eq_true] at hz
      simp only [hz, Bool.false_eq_true, if_false] at h
      by_cases hs : (containsSub (strOf "渋谷店") body ||
          containsSub (strOf "shibuya") (lowerStr body)) = true
      · exact Bool.or_eq_true _ _ |>.mp hs
      · simp only [Bool.not_eq_true] at hs
        simp [hs] at h
  · simp only [Bool.not_eq_true] at hb
    simp [hb] at h
    exact h.2.2

/-- C4 (amended): for the `HALLELReservationClassifier` entry point the
claim holds — an excluded-location marker forces null, classification
requires the included-location marker, and absence of both markers yields
null; the `FastGmailSync.parse_reservation` entry point, however, merely
requires one of `渋谷` / `shibuya` / `hallel` to occur and performs no
exclusion, so a `半蔵門店` message carrying the brand marker is classified
there (see the counterexample). -/
theorem claim_C4 :
    ∀ (subject body : Str),
    ((containsSub (strOf "半蔵門店") body = true ∨
      containsSub (strOf "hanzomon") (lowerStr body) = true) →
      classifyEmail subject body = none) ∧
    (¬classifyEmail subject body = none →
      containsSub (strOf "渋谷店") body = true ∨
      containsSub (strOf "shibuya") (lowerStr body) = true) ∧
    ((¬containsSub (strOf "渋谷店") body = true ∧
      ¬containsSub (strOf "shibuya") (lowerStr body) = true) →
      classifyEmail subject body = none) ∧
    (¬fastParseReservation body subject = none → fastLocationOk body = true) := by
  intro subject body
  refine ⟨?_, ?_, ?_, ?_⟩
  · intro h
    exact classifyEmail_none_of_filter subject body (isHallelEmail_false_of_hanzomon subject body h)
  · intro hne
    cases hf : isHallelEmail subject body with
    | false => exact absurd (classifyEmail_none_of_filter subject body hf) hne
    | true => exact isHallelEmail_shibuya subject body hf
  · intro hno
    cases hf : isHallelEmail subject body with
    | false => exact classifyEmail_none_of_filter subject body hf
    | true =>
      rcases isHallelEmail_shibuya subject body hf with h | h
      · exact absurd h hno.1
      · exact absurd h hno.2
  · intro hne
    by_cases hloc : fastLocationOk body = true
    · exact hloc
    · exfalso
      apply hne
      simp only [Bool.not_eq_true] at hloc
      unfold fastParseReservation
      by_cases hemp : body.isEmpty = true <;> simp [hemp, hloc]

/-- C4, counterexample: `FastGmailSync.parse_reservation` classifies the
`半蔵門店` message (brand marker present, excluded marker present, included
marker absent) instead of returning null. -/
theorem claim_C4_counterexample :
    containsSub (strOf "半蔵門店") c4Body = true ∧
    containsSub (strOf "渋谷店") c4Body = false ∧
    fastParseReservation c4Body c4Subject =
      some { date := strOf "2025-11-02", start := strOf "10:00", endTime := strOf "11:00",
             customer_name := strOf "田中", typ := strOf "gmail", is_cancellation := false,
             source := strOf "fast_gmail_sync" } := by decide

/-- C4, witness: the classifier entry point does return null on the same
`半蔵門店` message. -/
theorem claim_C4_witness : classifyEmail c4Subject c4Body = none :=
  (claim_C4 c4Subject c4Body).1 (Or.inl (by decide))

theorem fetchStep_eq (acc : List ReservationData) (msg : Str × Str × Str) :
    fetchStep acc msg = acc ++ (fetchGate msg).toList := by
  unfold fetchStep fetchGate
  cases hc : classifyEmail msg.2.1 msg.2.2 with
  | none => simp
  | some info => by_cases h : (7 : ℚ)/10 < info.confidence <;> simp [h]

theorem foldl_fetchStep (msgs : List (Str × Str × Str)) :
    ∀ acc, msgs.foldl fetchStep acc = acc ++ msgs.filterMap fetchGate := by
  induction msgs with
  | nil => intro acc; simp
  | cons m rest ih =>
    intro acc
    rw [List.foldl_cons, fetchStep_eq, ih, List.filterMap_cons]
    cases hg : fetchGate m <;> simp [hg]

theorem fetchAndParse_eq (msgs : List (Str × Str × Str)) :
    fetchAndParseReservations msgs = (msgs.take 20).filterMap fetchGate := by
  unfold fetchAndParseReservations
  rw [foldl_fetchStep]
  simp

theorem foldl_labelStep (msgs : List (Str × Str × Str)) :
    ∀ acc, msgs.foldl (fun acc msg =>
      match classifyEmail msg.2.1 msg.2.2 with
      | some info => if 7/10 < info.confidence then acc ++ [msg.1] else acc
      | none => acc) acc = acc ++ msgs.filterMap labelGate := by
  induction msgs with
  | nil => intro acc; simp
  | cons m rest ih =>
    intro acc
    rw [List.foldl_cons]
    have hstep : (match classifyEmail m.2.1 m.2.2 with
        | some info => if 7/10 < info.confidence then acc ++ [m.1] else acc
        | none => acc) = acc ++ (labelGate m).toList := by
      unfold labelGate fetchGate
      cases hc : classifyEmail m.2.1 m.2.2 with
      | none => simp
      | some info => by_cases h : (7 : ℚ)/10 < info.confidence <;> simp [h, convertInfo]
    rw [hstep, ih, List.filterMap_cons]
    cases hg : labelGate m <;> simp [hg]

theorem labeled_eq_map (msgs : List (Str × Str × Str)) :
    labeledMessageIds msgs = (fetchAndParseReservations msgs).map (fun r => r.message_id) := by
  unfold labeledMessageIds
  rw [foldl_labelStep, List.nil_append, fetchAndParse_eq, List.map_filterMap]
  rfl

/-- C10: in the Gmail parsing pipeline a classified event is propagated
(and its message labeled) exactly when `confidence > 0.7` strictly; every
classified event with confidence at most 0.7 is silently discarded and
never reaches the merge engine. -/
theorem claim_C10 :
    ∀ msgs : List (Str × Str × Str),
    (∀ r ∈ fetchAndParseReservations msgs, (7 : ℚ)/10 < r.confidence) ∧
    (∀ mid subj body info, (mid, subj, body) ∈ msgs.take 20 →
      classifyEmail subj body = some info →
      ((info.confidence ≤ 7/10 →
        ¬convertInfo mid subj info ∈ fetchAndParseReservations msgs) ∧
       (7/10 < info.confidence →
        convertInfo mid subj info ∈ fetchAndParseReservations msgs))) ∧
    labeledMessageIds msgs = (fetchAndParseReservations msgs).map (fun r => r.message_id) := by
  intro msgs
  have hmem : ∀ r, r ∈ fetchAndParseReservations msgs → (7 : ℚ)/10 < r.confidence := by
    intro r hr
    rw [fetchAndParse_eq] at hr
    rcases List.mem_filterMap.mp hr with ⟨a, _, hga⟩
    unfold fetchGate at hga
    cases hc : classifyEmail a.2.1 a.2.2 with
    | none => rw [hc] at hga; exact absurd hga (by simp)
    | some info =>
      rw [hc] at hga
      have hga2 : (if (7 : ℚ)/10 < info.confidence
          then some (convertInfo a.1 a.2.1 info) else none) = some r := hga
      by_cases hconf : (7 : ℚ)/10 < info.confidence
      · rw [if_pos hconf] at hga2
        have hr2 := Option.some_inj.mp hga2
        rw [← hr2]
        exact hconf
      · rw [if_neg hconf] at hga2
        exact absurd hga2 (by simp)
  refine ⟨hmem, ?_, labeled_eq_map msgs⟩
  intro mid subj body info htake hclass
  constructor
  · intro hle hmem2
    exact absurd (hmem _ hmem2) (not_lt.mpr hle)
  · intro hconf
    rw [fetchAndParse_eq]
    apply List.mem_filterMap.mpr
    refine ⟨(mid, subj, body), htake, ?_⟩
    show (match classifyEmail subj body with
      | some i => if 7/10 < i.confidence then some (convertInfo mid subj i) else none
      | none => none) = some (convertInfo mid subj info)
    rw [hclass]
    show (if (7 : ℚ)/10 < info.confidence
        then some (convertInfo mid subj info) else none) = some (convertInfo mid subj info)
    rw [if_pos hconf]

theorem c10_confidence_eval : calculateConfidence (strOf "booking") c10Body = 9/10 := by
  rw [calculateConfidence_eq]
  have hk : matchedKeywordCount (strOf "booking") c10Body = 1 := by decide
  have hw : keywordWeight (strOf "booking") = 1/10 := by norm_num [keywordWeight]
  have hd : dateSignal c10Body = true := by decide
  have ht : timeSignal c10Body = true := by decide
  have hh : brandSignal c10Body = true := by decide
  rw [hk, hw, hd, ht, hh]
  norm_num

theorem c10_classify_eval : classifyEmail c10Subject c10Body = some c10Info := by
  have h1 : isHallelEmail c10Subject c10Body = true := by decide
  have h2 : determineActionType c10Body = some (strOf "booking") := by decide
  have h3 : extractDateTime c10Body =
      some (strOf "2025-11-02", strOf "10:00", strOf "11:00", (60 : Int)) := by decide
  have h4 : extractCustomerName c10Body =
      strOf "HALLEL 渋谷店 ご予約ありがとうございます 2025年11月02日 10:00~11:00 田中" := by
    decide
  have h5 : extractStudioInfo c10Body = strOf "不明" := by decide
  unfold classifyEmail
  rw [h1, h2, h3]
  simp only [Bool.not_true, Bool.false_eq_true, if_false, h4, h5, c10_confidence_eval]
  rfl

/-- C10, witness: the concrete classified event has confidence 0.9 > 0.7
and is propagated to the output of the fetch pipeline. -/
theorem claim_C10_witness :
    convertInfo c10Mid c10Subject c10Info ∈
      fetchAndParseReservations [(c10Mid, c10Subject, c10Body)] ∧
    (7 : ℚ)/10 < c10Info.confidence := by
  have hconf : (7 : ℚ)/10 < c10Info.confidence := by
    show (7 : ℚ)/10 < 9/10
    norm_num
  have h := (claim_C10 [(c10Mid, c10Subject, c10Body)]).2.1 c10Mid c10Subject c10Body c10Info
    (by decide) c10_classify_eval
  exact ⟨h.2 hconf, hconf⟩
